import Mathlib

/-!
# Verification of the Evaluator grading core

A shallow embedding of the evaluation pipeline:
`backend/core/agents/code_agent.py`, `backend/core/agents/content_agent.py`,
`backend/core/agents/aggregator_agent.py`, `backend/core/utils/rubric.py`,
and `backend/core/controller/orchestrator.py`.

Modelling conventions:
* Python floats are modelled as exact rationals (`ℚ`); `round(x, 2)` is
  modelled as round-half-to-even at two decimals (`pyRound2`).
* Python strings are Lean `String`s; `in` on strings is substring containment
  on character lists; `str.lower`/`strip`/`split` are modelled on the ASCII
  fragment actually exercised by the grader.
* The external components that the agents merely consume — `ast.parse`
  (only the node counts the agents extract), the C++ regex scans, and
  `difflib.SequenceMatcher(...).ratio()` — are pure functions of the source
  text and are supplied as an explicit `Externals` record of oracles.
* The LLM service is external; it is modelled as a record of pure functions
  (`checkRelevance`, `genFeedback`) plus its `enabled` flag.  Python `set`
  iteration order is unspecified; it is modelled as first-seen order
  (`pyDedup`), which leaves every count and ratio unchanged.
* The mutable instance attributes `_last_missing_concepts` and
  `_last_relevance_verdict` are modelled by explicit state passing
  (`AgentState`).
-/

/-- Is `n` a contiguous sublist of the second argument? -/
def listInfix (n : List Char) : List Char → Bool
  | [] => n.isEmpty
  | c :: cs => n.isPrefixOf (c :: cs) || listInfix n cs

/-- Python `needle in hay` substring test on strings. -/
def strContains (hay needle : String) : Bool :=
  listInfix needle.toList hay.toList

/-- Python `str.lower()`, character by character. -/
def pyLower (s : String) : String := ⟨s.data.map Char.toLower⟩

/-- Split a character list at every character satisfying `p` (the
accumulator is the reversed current piece). -/
def splitOnPGo (p : Char → Bool) (acc : List Char) : List Char → List (List Char)
  | [] => [acc.reverse]
  | x :: xs =>
      if p x then acc.reverse :: splitOnPGo p [] xs
      else splitOnPGo p (x :: acc) xs

/-- Split a string at every character satisfying `p`, keeping empty
pieces. -/
def strSplitOnP (p : Char → Bool) (s : String) : List String :=
  (splitOnPGo p [] s.data).map (fun l => ⟨l⟩)

/-- Python `str.split(sep)` for a one-character separator. -/
def strSplitOnChar (c : Char) (s : String) : List String :=
  strSplitOnP (fun x => x = c) s

/-- Python `str.strip()`: drop whitespace from both ends. -/
def pyStrip (s : String) : String :=
  ⟨((s.data.dropWhile Char.isWhitespace).reverse.dropWhile
      Char.isWhitespace).reverse⟩

/-- Python `str.startswith`. -/
def strStartsWith (s p : String) : Bool := p.data.isPrefixOf s.data

/-- Python `str.endswith`. -/
def strEndsWith (s p : String) : Bool :=
  p.data.reverse.isPrefixOf s.data.reverse

/-- Python word character for `\w` (ASCII fragment): letters, digits, underscore. -/
def isWordChar (c : Char) : Bool := c.isAlphanum || c = '_'

/-- Maximal runs of characters satisfying `p` (accumulator is the reversed
current run). -/
def runsGo (p : Char → Bool) : List Char → List Char → List (List Char)
  | [], cur => if cur.isEmpty then [] else [cur.reverse]
  | c :: cs, cur =>
      if p c then runsGo p cs (c :: cur)
      else if cur.isEmpty then runsGo p cs []
      else cur.reverse :: runsGo p cs []

/-- `re.findall(r"\b\w{4,}\b", s)`: maximal runs of word characters of
length at least 4, in order of occurrence. -/
def wordTokens (s : String) : List String :=
  ((runsGo isWordChar s.toList []).filter (fun r => 4 ≤ r.length)).map
    (fun r => String.mk r)

/-- Python `set(...)` modelled as first-seen deduplication. -/
def pyDedupGo (seen : List String) : List String → List String
  | [] => []
  | a :: as =>
      if seen.contains a then pyDedupGo seen as
      else a :: pyDedupGo (a :: seen) as

/-- First-seen deduplication of a list of strings. -/
def pyDedup (l : List String) : List String := pyDedupGo [] l

/-- Python `str.split()` (no argument): split on whitespace runs, dropping
empty pieces. -/
def pySplitWs (s : String) : List String :=
  (strSplitOnP Char.isWhitespace s).filter (fun t => t ≠ "")

/-- `re.split(r"[.!?]+", s)` up to empty pieces: the content agent only uses
the result after stripping and dropping empties, for which splitting at each
individual delimiter character is equivalent. -/
def splitSentences (s : String) : List String :=
  strSplitOnP (fun c => c = '.' || c = '!' || c = '?') s

/-- Python `int(q)` for a float: truncation toward zero. -/
def pyIntTrunc (q : ℚ) : ℤ := if q < 0 then ⌈q⌉ else ⌊q⌋

/-- Python `abs` on floats, as an executable definition. -/
def pyAbs (q : ℚ) : ℚ := if q < 0 then -q else q

theorem pyAbs_eq_abs (q : ℚ) : pyAbs q = |q| := by
  unfold pyAbs
  split_ifs with h
  · exact (abs_of_neg h).symm
  · exact (abs_of_nonneg (not_lt.mp h)).symm

/-- Round-half-to-even to an integer. -/
def roundHalfEven (q : ℚ) : ℤ :=
  let f := ⌊q⌋
  let r := q - (f : ℚ)
  if r < 1/2 then f
  else if 1/2 < r then f + 1
  else if f % 2 = 0 then f else f + 1

/-- Python `round(x, 2)` modelled on exact rationals. -/
def pyRound2 (q : ℚ) : ℚ := (roundHalfEven (q * 100) : ℚ) / 100

theorem floor_le_roundHalfEven (q : ℚ) : ⌊q⌋ ≤ roundHalfEven q := by
  unfold roundHalfEven
  dsimp only
  split
  · exact le_refl _
  · split
    · exact le_of_lt (lt_add_one _)
    · split
      · exact le_refl _
      · exact le_of_lt (lt_add_one _)

theorem roundHalfEven_le_ceil (q : ℚ) : roundHalfEven q ≤ ⌈q⌉ := by
  unfold roundHalfEven
  dsimp only
  have hfl : (⌊q⌋ : ℚ) ≤ q := Int.floor_le q
  have hfc : ⌊q⌋ ≤ ⌈q⌉ := Int.floor_le_ceil q
  split
  · exact hfc
  · rename_i h
    push_neg at h
    have hlt : (⌊q⌋ : ℚ) < q := by linarith
    have hstep : ⌊q⌋ < ⌈q⌉ := by
      have hq : q ≤ (⌈q⌉ : ℚ) := Int.le_ceil q
      exact_mod_cast lt_of_lt_of_le hlt hq
    split
    · omega
    · split <;> omega

theorem roundHalfEven_le_add_half (q : ℚ) : (roundHalfEven q : ℚ) ≤ q + 1/2 := by
  unfold roundHalfEven
  dsimp only
  have hfl : (⌊q⌋ : ℚ) ≤ q := Int.floor_le q
  split
  · linarith
  · rename_i h
    push_neg at h
    split
    · push_cast
      linarith
    · split
      · linarith
      · push_cast
        linarith

theorem roundHalfEven_nonneg {q : ℚ} (h : 0 ≤ q) : 0 ≤ roundHalfEven q := by
  have := floor_le_roundHalfEven q
  have h0 : (0:ℤ) ≤ ⌊q⌋ := Int.floor_nonneg.mpr h
  omega

theorem pyRound2_nonneg {q : ℚ} (h : 0 ≤ q) : 0 ≤ pyRound2 q := by
  unfold pyRound2
  have h1 : 0 ≤ roundHalfEven (q * 100) :=
    roundHalfEven_nonneg (by positivity)
  positivity

theorem pyRound2_le_add (q : ℚ) : pyRound2 q ≤ q + 1/200 := by
  unfold pyRound2
  have h := roundHalfEven_le_add_half (q * 100)
  linarith

theorem pyRound2_le_int {q : ℚ} {n : ℤ} (h : q ≤ n) : pyRound2 q ≤ n := by
  unfold pyRound2
  have h1 : roundHalfEven (q * 100) ≤ ⌈q * 100⌉ := roundHalfEven_le_ceil _
  have h2 : ⌈q * 100⌉ ≤ n * 100 := by
    apply Int.ceil_le.mpr
    push_cast
    nlinarith
  have h3 : (roundHalfEven (q * 100) : ℚ) ≤ ((n * 100 : ℤ) : ℚ) := by
    exact_mod_cast le_trans h1 h2
  push_cast at h3
  linarith

/-! ## External components and agent state -/

/-- The node counts that `CodeEvaluationAgent` extracts from a successful
`ast.parse` of a Python submission. -/
structure PyParse where
  functionDefs : Nat
  classDefs : Nat
  assigns : Nat
  controlFlow : Nat
deriving DecidableEq, Repr

/-- The counts that the C++ regex scans of `CodeEvaluationAgent` produce:
`\w+\s+\w+\s*\([^)]*\)\s*\{` matches, `class\s+\w+` matches,
`/\*.*?\*/` (DOTALL) matches, and the total of the
`if/for/while/switch` control-flow pattern matches. -/
structure CppScan where
  fnDecls : Nat
  classDecls : Nat
  blockComments : Nat
  controlFlow : Nat
deriving DecidableEq, Repr

/-- External pure components consumed by the agents: the Python parser
(`ast.parse`, reduced to the counts the agent reads, `none` on
`SyntaxError`), the C++ regex scans, `difflib.SequenceMatcher(None, a, b)
.ratio()`, and Python `str()` of the two rubric shapes (only forwarded to
the elaboration oracle, never inspected). -/
structure Externals where
  pyAst : String → Option PyParse
  cppScan : String → CppScan
  seqRatio : String → String → ℚ
  reprCodeRubric : Option (List (String × ℚ)) → String
  reprContentRubric : String

/-- Argument record of `LLMService.generate_semantic_feedback`. -/
structure GenArgs where
  contextType : String
  submission : String
  rubricCtx : String
  findings : List String
  missing : List String
  relevanceStatus : String

/-- The external LLM service: its process-wide enable flag and its two
capabilities, modelled as pure functions.  `check_relevance` returns one of
the verdict strings (or `"UNCERTAIN"` on any failure). -/
structure LLMService where
  enabled : Bool
  checkRelevance : String → String → String → String
  genFeedback : GenArgs → List String

/-- The mutable instance attributes of an evaluation agent:
`_last_missing_concepts` and `_last_relevance_verdict` (`none` models the
attribute being absent, read through `getattr(..., default)`). -/
structure AgentState where
  lastMissing : Option (List String)
  lastVerdict : Option String
deriving DecidableEq, Repr

/-- A freshly constructed agent: neither attribute exists yet. -/
def freshAgent : AgentState := ⟨none, none⟩

/-- Analyzer output record `{score, max_score, feedback}`. -/
structure AgentResult where
  score : ℚ
  maxScore : ℚ
  feedback : List String
deriving DecidableEq, Repr

/-! ## Code agent (`backend/core/agents/code_agent.py`) -/

/-- `CodeEvaluationAgent.STOP_WORDS`. -/
def STOP_WORDS : List String :=
  ["function", "return", "class", "solution", "input", "output", "code",
   "string", "include", "std", "write", "example", "explanation", "leetcode",
   "implement", "given", "problem", "following", "int", "float", "double",
   "bool", "void", "vector", "list", "map", "set", "array", "if", "for",
   "while", "const", "main", "args", "public", "private"]

inductive Lang
  | python
  | cpp
deriving DecidableEq, Repr

/-- `CodeEvaluationAgent._detect_language`. -/
def detectLanguage (code : String) (filename : String) : Lang :=
  let ext := if strContains filename "." then
      ((strSplitOnChar '.' (pyLower filename)).getLastD "")
    else ""
  if ["cpp", "cc", "cxx", "h", "hpp"].contains ext then .cpp
  else if ext = "py" then .python
  else if strContains code "#include" || strContains code "std::" then .cpp
  else .python

/-- The candidate concept set of `_evaluate_approach_python` / `_cpp`:
`[w for w in set(re.findall(r'\b\w{4,}\b', problem.lower())) if w not in
STOP_WORDS]`. -/
def codeProblemKeywords (problem : String) : List String :=
  (pyDedup (wordTokens (pyLower problem))).filter
    (fun w => ¬ STOP_WORDS.contains w)

/-- Keywords of the problem statement literally present in the lower-cased
submission. -/
def coveredKeywords (problem code : String) : List String :=
  (codeProblemKeywords problem).filter (fun w => strContains (pyLower code) w)

/-- Keywords of the problem statement absent from the lower-cased
submission. -/
def missingKeywords (problem code : String) : List String :=
  (codeProblemKeywords problem).filter (fun w => ¬ strContains (pyLower code) w)

/-- `match_ratio`: covered over total keywords, `0` when there are no
keywords. -/
def keywordMatchRatio (problem code : String) : ℚ :=
  let total := (codeProblemKeywords problem).length
  if 0 < total then ((coveredKeywords problem code).length : ℚ) / total else 0

/-- The keyword-based scoring block shared verbatim by
`_evaluate_approach_python` (after the parse guard) and
`_evaluate_approach_cpp`: stores missing concepts, then scores from the
LLM verdict refined by the match ratio, or from the strict fallback. -/
def approachKeywordBlock (st : AgentState) (code problem : String)
    (llmVerdict : Option String) (feedback : List String) :
    ℚ × List String × AgentState :=
  let covered := coveredKeywords problem code
  let missing := missingKeywords problem code
  let st1 : AgentState := { st with lastMissing := some missing }
  let ratio := keywordMatchRatio problem code
  let nCov := covered.length
  if llmVerdict = some "RELEVANT" ∨ llmVerdict = some "PARTIAL" then
    if 3/10 ≤ ratio ∨ 3 ≤ nCov then
      (min (if llmVerdict = some "RELEVANT" then 100 else 80) 100,
       feedback ++ ["Relevant approach with good keyword alignment."], st1)
    else if 3/20 ≤ ratio then
      (min (if llmVerdict = some "RELEVANT" then 90 else 60) 100,
       feedback ++ ["Relevant approach (LLM verified)."], st1)
    else
      (min (if llmVerdict = some "RELEVANT" then 80 else 30) 100,
       feedback ++ ["LLM verified relevance, but keyword match is minimal."], st1)
  else
    if 1/4 ≤ ratio ∨ 2 ≤ nCov then
      (min 75 100,
       feedback ++ [s!"Code appears relevant based on keyword match ({nCov} matches)."], st1)
    else
      let pct := pyIntTrunc (ratio * 100)
      (0,
       feedback ++
         [s!"Irrelevant submission: Code does not address problem (Low match ratio: {pct}%, Found {nCov} keywords)."],
       st1)

/-- `CodeEvaluationAgent._evaluate_approach_python`: parse guard, then the
keyword block. -/
def evaluateApproachPython (ext : Externals) (st : AgentState)
    (code problem : String) (llmVerdict : Option String)
    (feedback : List String) : ℚ × List String × AgentState :=
  match ext.pyAst code with
  | none => (0, feedback ++ ["Code has syntax errors. Review and fix them."], st)
  | some _ => approachKeywordBlock st code problem llmVerdict feedback

/-- `CodeEvaluationAgent._evaluate_approach_cpp`: the keyword block with no
parse guard (its body repeats the Python block verbatim in the source). -/
def evaluateApproachCpp (st : AgentState) (code problem : String)
    (llmVerdict : Option String) (feedback : List String) :
    ℚ × List String × AgentState :=
  approachKeywordBlock st code problem llmVerdict feedback

/-- `CodeEvaluationAgent._evaluate_approach`: optional LLM gate, then
dispatch on the detected language. -/
def evaluateApproach (ext : Externals) (svc : LLMService) (st : AgentState)
    (code problem : String) (lang : Lang) (feedback : List String) :
    ℚ × List String × AgentState :=
  if svc.enabled then
    let v := svc.checkRelevance problem code "code"
    let st1 : AgentState := { st with lastVerdict := some v }
    if v = "IRRELEVANT" then
      (0, feedback ++ ["⚠️ LLM determined code is irrelevant to the problem. Score: 0."], st1)
    else
      let fb :=
        if v = "PARTIAL" then
          feedback ++ ["⚠️ LLM found partial relevance. Proceeding with reduced scoring."]
        else if v = "RELEVANT" then
          feedback ++ ["✓ LLM verified submission is relevant to the problem."]
        else feedback
      match lang with
      | .python => evaluateApproachPython ext st1 code problem (some v) fb
      | .cpp => evaluateApproachCpp st1 code problem (some v) fb
  else
    match lang with
    | .python => evaluateApproachPython ext st code problem none feedback
    | .cpp => evaluateApproachCpp st code problem none feedback

/-- `CodeEvaluationAgent._evaluate_readability`. -/
def evaluateReadability (ext : Externals) (code : String) (feedback : List String)
    (lang : Lang) : ℚ × List String :=
  let lines := strSplitOnChar '\n' code
  let longLines := (lines.filter (fun l => 100 < (pyStrip l).length)).length
  let (s1, fb1) :=
    if longLines = 0 then
      ((60 : ℚ), feedback ++ ["Line length is appropriate for readability."])
    else
      (0, feedback ++
        [s!"→ {longLines} lines exceed 100 characters. Break them into shorter lines."])
  let commentLines :=
    match lang with
    | .python => (lines.filter (fun l => strStartsWith (pyStrip l) "#")).length
    | .cpp =>
        (lines.filter (fun l => strContains l "//")).length +
          (ext.cppScan code).blockComments
  let (s2, fb2) :=
    if 0 < commentLines then
      ((40 : ℚ), fb1 ++ [s!"Code includes comments ({commentLines} found)."])
    else
      (0, fb1 ++ ["→ Add comments to explain your logic."])
  (min (s1 + s2) 100, fb2)

/-- `CodeEvaluationAgent._evaluate_structure`. -/
def evaluateStructure (ext : Externals) (code : String) (feedback : List String)
    (lang : Lang) : ℚ × List String :=
  match lang with
  | .python =>
    match ext.pyAst code with
    | none => (0, feedback)
    | some p =>
      let totalDefs := p.functionDefs + p.classDefs
      let (s1, fb1) :=
        if 0 < totalDefs then
          ((60 : ℚ), feedback ++ [s!"Good modularization ({totalDefs} functions/classes)."])
        else
          (0, feedback ++ ["→ Consider breaking code into functions for reusability."])
      let (s2, fb2) :=
        if 0 < p.assigns then
          ((40 : ℚ), fb1 ++ ["Code uses variable assignments (structured logic)."])
        else (0, fb1)
      (min (s1 + s2) 100, fb2)
  | .cpp =>
    let sc := ext.cppScan code
    let totalDefs := sc.fnDecls + sc.classDecls
    let (s1, fb1) :=
      if 0 < totalDefs then
        ((60 : ℚ), feedback ++ [s!"Good modularization ({totalDefs} functions/classes)."])
      else
        (0, feedback ++ ["→ Consider breaking code into functions for reusability."])
    let (s2, fb2) :=
      if strContains code "namespace" || strContains code "std::" ||
          (strContains code "#ifndef" && strContains code "#define") then
        ((40 : ℚ), fb1 ++ ["✓ Code uses namespaces/guards (good C++ practice)."])
      else (0, fb1)
    (min (s1 + s2) 100, fb2)

/-- `CodeEvaluationAgent._evaluate_effort`. -/
def evaluateEffort (ext : Externals) (code : String) (feedback : List String)
    (lang : Lang) : ℚ × List String :=
  let lines := strSplitOnChar '\n' code
  let nonEmpty :=
    match lang with
    | .python => lines.filter (fun (l : String) => pyStrip l != "" && !(strStartsWith (pyStrip l) "#"))
    | .cpp => lines.filter (fun (l : String) => pyStrip l != "" && !(strStartsWith (pyStrip l) "//"))
  let codeLines := nonEmpty.length
  let (s1, fb1) :=
    if 5 < codeLines then
      ((60 : ℚ), feedback ++ [s!"Substantial code submission ({codeLines} lines)."])
    else if 0 < codeLines then
      (30, feedback ++ ["→ Your solution is brief. Consider adding more logic or cases."])
    else (0, feedback)
  let (s2, fb2) :=
    match lang with
    | .python =>
      match ext.pyAst code with
      | none => ((0 : ℚ), fb1)
      | some p =>
        if 0 < p.controlFlow then
          (40, fb1 ++ [s!"✓ Code includes control flow ({p.controlFlow} conditions/loops)."])
        else (0, fb1)
    | .cpp =>
      let cf := (ext.cppScan code).controlFlow
      if 0 < cf then
        ((20 : ℚ), fb1 ++ [s!"✓ Code includes control flow ({cf} conditions/loops)."])
      else (0, fb1)
  (min (s1 + s2) 100, fb2)

/-- Input record of `CodeEvaluationAgent.evaluate`; `rubricWeights` models
`input_data["rubric"].get("weights")` (`none` when absent). -/
structure CodeInput where
  problem : String
  rubricWeights : Option (List (String × ℚ))
  code : String
  filename : String

/-- The default per-criterion weights of `CodeEvaluationAgent.evaluate`. -/
def defaultCodeWeights : List (String × ℚ) :=
  [("approach", 2/5), ("readability", 1/5), ("structure", 1/5), ("effort", 1/5)]

/-- The relevance multiplier of `CodeEvaluationAgent.evaluate`. -/
def relevanceMultiplier (approachScore : ℚ) : ℚ :=
  if 60 ≤ approachScore then 1 else approachScore / 60

/-- `scores["readability"]` as recorded by `CodeEvaluationAgent.evaluate`. -/
def gatedReadability (approachScore readabilityRaw : ℚ) : ℚ :=
  if approachScore = 0 then min readabilityRaw 10
  else readabilityRaw * relevanceMultiplier approachScore

/-- `scores["structure"]` and `scores["effort"]` as recorded by
`CodeEvaluationAgent.evaluate`. -/
def gatedByRelevance (approachScore raw : ℚ) : ℚ :=
  raw * relevanceMultiplier approachScore

/-- All intermediate values of one `CodeEvaluationAgent.evaluate` run, up to
the point where the totals are formed. -/
structure CodeParts where
  lang : Lang
  approach : ℚ
  readabilityRaw : ℚ
  readabilityScore : ℚ
  structureRaw : ℚ
  structureScore : ℚ
  effortRaw : ℚ
  effortScore : ℚ
  feedback : List String
  state : AgentState

/-- The sub-criterion pipeline of `CodeEvaluationAgent.evaluate`: approach
(with gate), readability, structure, effort, and the non-relevance note. -/
def codeParts (ext : Externals) (svc : LLMService) (st : AgentState)
    (inp : CodeInput) : CodeParts :=
  let lang := detectLanguage inp.code inp.filename
  let ap := evaluateApproach ext svc st inp.code inp.problem lang []
  let approach := ap.1
  let rd := evaluateReadability ext inp.code ap.2.1 lang
  let stc := evaluateStructure ext inp.code rd.2 lang
  let ef := evaluateEffort ext inp.code stc.2 lang
  let fb5 :=
    if approach = 0 then
      ef.2 ++ ["Evaluation Note: Non-relevant submission. Effort and structure rewards are withheld."]
    else ef.2
  { lang := lang
    approach := approach
    readabilityRaw := rd.1
    readabilityScore := gatedReadability approach rd.1
    structureRaw := stc.1
    structureScore := gatedByRelevance approach stc.1
    effortRaw := ef.1
    effortScore := gatedByRelevance approach ef.1
    feedback := fb5
    state := ap.2.2 }

/-- `scores.get(k, 0)` of `CodeEvaluationAgent.evaluate`. -/
def codeScoreOf (p : CodeParts) (k : String) : ℚ :=
  if k = "approach" then p.approach
  else if k = "readability" then p.readabilityScore
  else if k = "structure" then p.structureScore
  else if k = "effort" then p.effortScore
  else 0

/-- `CodeEvaluationAgent.evaluate`: sub-criteria, weighted total, and the
optional LLM feedback layer.  Returns the result record and the updated
instance state. -/
def codeEvaluate (ext : Externals) (svc : LLMService) (st : AgentState)
    (inp : CodeInput) : AgentResult × AgentState :=
  let p := codeParts ext svc st inp
  let weights := inp.rubricWeights.getD defaultCodeWeights
  let totalScore := (weights.map (fun kv => codeScoreOf p kv.1 * kv.2)).sum
  let maxScore := ((weights.map Prod.snd).sum) * 100
  let fbFinal :=
    if svc.enabled then
      let missingConcepts := p.state.lastMissing.getD []
      let findings := p.feedback.filter (fun f =>
        strStartsWith f "✓" || strStartsWith f "→" || strStartsWith f "❌")
      let llmFeedback := svc.genFeedback
        { contextType := "code"
          submission := inp.code
          rubricCtx := ext.reprCodeRubric inp.rubricWeights
          findings := findings
          missing := missingConcepts
          relevanceStatus := p.state.lastVerdict.getD "UNCERTAIN" }
      if llmFeedback ≠ [] then "LLM Explanation:" :: llmFeedback else p.feedback
    else p.feedback
  ({ score := pyRound2 totalScore, maxScore := maxScore, feedback := fbFinal },
   p.state)

/-! ## Content agent (`backend/core/agents/content_agent.py`) -/

/-- The concept-bearing keys a content rubric dict may carry;
`criteria` covers both the list form and the keys of the dict form. -/
structure ContentRubricData where
  concepts : Option (List String)
  criteria : Option (List String)
  learningObjectives : Option (List String)
  requiredSections : Option (List String)
deriving DecidableEq, Repr

/-- Input record of `ContentEvaluationAgent.evaluate`; `rubric = none`
models a falsy (`{}`/absent) rubric dict. -/
structure ContentInput where
  content : String
  rubric : Option ContentRubricData
  idealReference : String
  problem : String

/-- The stopword set of `ContentEvaluationAgent._extract_task_concepts`. -/
def contentStopwords : List String :=
  ["the", "a", "an", "and", "or", "but", "in", "on", "at", "to", "for",
   "of", "with", "from", "by", "as", "is", "was", "are", "were", "be",
   "been", "being", "have", "has", "had", "do", "does", "did", "will",
   "would", "should", "could", "may", "might", "must", "can", "this",
   "that", "these", "those", "your", "their", "our", "its", "his", "her",
   "make", "create", "provide", "include", "ensure", "allow", "enable",
   "support", "help", "need", "want", "give", "take", "show", "tell",
   "huge", "large", "small", "good", "bad", "best", "better", "more",
   "less", "most", "least", "very", "much", "many", "some", "all",
   "each", "every", "both", "either", "neither", "other", "another",
   "such", "same", "different", "new", "old", "first", "last", "next",
   "previous", "following", "above", "below", "between", "among",
   "expert", "hours", "challenge", "statement", "detailed", "report",
   "proposed", "solution", "plan", "problem"]

/-- The allow-list of technical suffixed terms kept by
`_extract_task_concepts`. -/
def technicalSuffixedTerms : List String :=
  ["indexing", "embedding", "processing", "generation", "retrieval"]

/-- `ContentEvaluationAgent._extract_task_concepts`. -/
def extractTaskConcepts (problem : String) : List String :=
  let words := wordTokens (pyLower problem)
  let taskConcepts := (pyDedup words).filter
    (fun w => ¬ contentStopwords.contains w)
  let domainTerms := taskConcepts.filter (fun c =>
    if strEndsWith c "ing" || strEndsWith c "ed" || strEndsWith c "ly" ||
        strEndsWith c "tion" || strEndsWith c "ment" || strEndsWith c "ness" then
      technicalSuffixedTerms.contains c
    else true)
  domainTerms.take 12

/-- `ContentEvaluationAgent._extract_key_concepts`: rubric concepts and
criteria, then reference keywords (first ten of the deduplicated token
set), then auto-extraction from the problem statement, deduplicated. -/
def extractKeyConcepts (rubric : Option ContentRubricData)
    (idealReference problem : String) : List String :=
  let c1 :=
    match rubric with
    | none => []
    | some rd => rd.concepts.getD [] ++ rd.criteria.getD []
  let c2 :=
    if idealReference ≠ "" then
      c1 ++ (pyDedup (wordTokens (pyLower idealReference))).take 10
    else c1
  let c3 :=
    if c2 = [] ∧ problem ≠ "" then c2 ++ extractTaskConcepts problem else c2
  pyDedup c3

/-- Key concepts literally present (case-insensitive substring) in the
content. -/
def coveredConcepts (content : String) (keyConcepts : List String) :
    List String :=
  keyConcepts.filter (fun c => strContains (pyLower content) (pyLower c))

/-- Key concepts absent from the content. -/
def missingConceptsOf (content : String) (keyConcepts : List String) :
    List String :=
  keyConcepts.filter (fun c => ¬ strContains (pyLower content) (pyLower c))

/-- The banding of `_evaluate_concept_coverage` for a non-empty concept
set: `min` of the band score and 100, exactly as the source computes it. -/
def conceptCoverageScore (content : String) (keyConcepts : List String) : ℚ :=
  if keyConcepts = [] then 60
  else
    let pct : ℚ :=
      ((coveredConcepts content keyConcepts).length : ℚ) /
        (keyConcepts.length : ℚ) * 100
    let band : ℚ :=
      if 80 ≤ pct then 90
      else if 60 ≤ pct then 70
      else if 40 ≤ pct then 50
      else if 20 ≤ pct then 20
      else 0
    min band 100

/-- `ContentEvaluationAgent._evaluate_concept_coverage`: score, feedback
additions, and the `_last_missing_concepts` update. -/
def evaluateConceptCoverage (svc : LLMService) (st : AgentState)
    (content : String) (keyConcepts : List String) (feedback : List String) :
    ℚ × List String × AgentState :=
  if keyConcepts = [] then
    (60, feedback ++ ["ℹ No key concepts specified for comparison."], st)
  else
    let covered := coveredConcepts content keyConcepts
    let missing := missingConceptsOf content keyConcepts
    let st1 : AgentState := { st with lastMissing := some missing }
    let nCov := covered.length
    let nAll := keyConcepts.length
    let pct : ℚ := (nCov : ℚ) / (nAll : ℚ) * 100
    let (score, fb) :=
      if 80 ≤ pct then
        ((90 : ℚ),
         let f1 := feedback ++ [s!"✓ Excellent concept coverage ({nCov}/{nAll} concepts)."]
         if missing ≠ [] ∧ ¬ svc.enabled then
           f1 ++ ["→ Missing: " ++ String.intercalate ", " (missing.take 5)]
         else f1)
      else if 60 ≤ pct then
        ((70 : ℚ),
         let f1 := feedback ++ [s!"→ Good coverage ({nCov}/{nAll} concepts)."]
         if ¬ svc.enabled then
           f1 ++ ["→ Missing: " ++ String.intercalate ", " (missing.take 5)]
         else f1)
      else if 40 ≤ pct then
        ((50 : ℚ),
         let f1 := feedback ++ [s!"→ Partial coverage ({nCov}/{nAll} concepts)."]
         if ¬ svc.enabled then
           f1 ++ ["→ Missing key concepts: " ++ String.intercalate ", " (missing.take 7)]
         else f1)
      else if 20 ≤ pct then
        ((20 : ℚ), feedback ++ [s!"→ Low coverage ({nCov}/{nAll} concepts)."])
      else
        ((0 : ℚ),
         let f1 := feedback ++ [s!"❌ Very low concept coverage ({nCov}/{nAll} concepts)."]
         if ¬ svc.enabled then
           f1 ++ ["❌ Missing critical concepts: " ++ String.intercalate ", " (missing.take 10)]
         else f1)
    (min score 100, fb, st1)

/-- `ContentEvaluationAgent._evaluate_alignment`. -/
def evaluateAlignment (content : String) (rubric : Option ContentRubricData)
    (feedback : List String) : ℚ × List String :=
  match rubric with
  | none => (50, feedback)
  | some rd =>
    let (s1, fb1) :=
      match rd.learningObjectives with
      | none => ((0 : ℚ), feedback)
      | some objectives =>
        let matched := (objectives.filter
          (fun (o : String) => strContains (pyLower content) (pyLower o))).length
        if 0 < matched then
          (30, feedback ++ [s!"✓ Addresses {matched} learning objectives."])
        else
          (0, feedback ++ ["→ Content should align with stated learning objectives."])
    let (s2, fb2) :=
      match rd.requiredSections with
      | none => ((0 : ℚ), fb1)
      | some sections =>
        let matchedSections := (sections.filter
          (fun (sec : String) => strContains (pyLower content) (pyLower sec))).length
        if (sections.length : ℚ) * (7/10) ≤ (matchedSections : ℚ) then
          (20, fb1 ++
            [s!"✓ Includes most required sections ({matchedSections}/{sections.length})."])
        else
          (0, fb1 ++
            [s!"→ Missing some required sections. Found {matchedSections}/{sections.length}."])
    (min (50 + s1 + s2) 100, fb2)

/-- The transition-word list of `_evaluate_logical_flow`. -/
def transitionWords : List String :=
  ["therefore", "however", "additionally", "moreover", "furthermore",
   "in conclusion", "as a result", "for example", "similarly",
   "in contrast", "meanwhile", "next", "finally"]

/-- `ContentEvaluationAgent._evaluate_logical_flow`. -/
def evaluateLogicalFlow (content : String) (feedback : List String) :
    ℚ × List String :=
  let lines := strSplitOnChar '\n' content
  let paragraphs := (lines.map pyStrip).filter (fun p => p ≠ "")
  let sentences := ((splitSentences content).map pyStrip).filter
    (fun s => s ≠ "")
  let (s1, fb1) :=
    if 3 < paragraphs.length then
      ((25 : ℚ), feedback ++ [s!"✓ Well-organized ({paragraphs.length} distinct sections)."])
    else if 1 < paragraphs.length then
      (15, feedback ++ ["→ Consider organizing content into more distinct sections."])
    else
      (0, feedback ++ ["→ Break content into multiple paragraphs for clarity."])
  let avgSentenceLength : ℚ :=
    if sentences ≠ [] then
      ((sentences.map (fun s => (pySplitWs s).length)).sum : ℚ) / sentences.length
    else 0
  let (s2, fb2) :=
    if 10 < avgSentenceLength ∧ avgSentenceLength < 25 then
      ((15 : ℚ), fb1 ++ ["✓ Sentence structure is clear and varied."])
    else if 30 < avgSentenceLength then
      (0, fb1 ++ ["→ Some sentences are too long. Break them for clarity."])
    else if avgSentenceLength < 5 then
      (0, fb1 ++ ["→ Sentences are too short. Expand with more detail."])
    else (0, fb1)
  let transitions := (transitionWords.filter
    (fun w => strContains (pyLower content) w)).length
  let (s3, fb3) :=
    if 3 ≤ transitions then
      ((10 : ℚ), fb2 ++ ["✓ Good use of transitions for logical flow."])
    else if 0 < transitions then
      (0, fb2 ++ ["→ Add more transition words to improve flow between ideas."])
    else (0, fb2)
  (min (50 + s1 + s2 + s3) 100, fb3)

/-- The example-indicator phrases of `_evaluate_completeness`. -/
def exampleIndicators : List String :=
  ["example", "for instance", "such as", "specifically",
   "in particular", "illustration", "case study"]

/-- The reasoning-indicator phrases of `_evaluate_completeness`. -/
def reasoningIndicators : List String :=
  ["because", "reason", "evidence", "research", "study",
   "proven", "demonstrated", "support", "justify"]

/-- `ContentEvaluationAgent._evaluate_completeness`. -/
def evaluateCompleteness (content : String) (feedback : List String) :
    ℚ × List String :=
  let wordCount := (pySplitWs content).length
  let (s1, fb1) :=
    if 300 < wordCount then
      ((30 : ℚ), feedback ++ [s!"✓ Substantial content ({wordCount} words)."])
    else if 150 < wordCount then
      (15, feedback ++ [s!"→ Content is moderate ({wordCount} words). Add more detail."])
    else
      (0, feedback ++
        [s!"→ Content is brief ({wordCount} words). Expand with examples and explanations."])
  let hasExamples := exampleIndicators.any
    (fun ind => strContains (pyLower content) ind)
  let (s2, fb2) :=
    if hasExamples then
      ((10 : ℚ), fb1 ++ ["✓ Includes examples or specific details."])
    else (0, fb1 ++ ["→ Add concrete examples to support your concepts."])
  let hasReasoning := reasoningIndicators.any
    (fun ind => strContains (pyLower content) ind)
  let (s3, fb3) :=
    if hasReasoning then
      ((10 : ℚ), fb2 ++ ["✓ Includes reasoning or evidence."])
    else (0, fb2 ++ ["→ Add reasoning or evidence to strengthen claims."])
  (min (50 + s1 + s2 + s3) 100, fb3)

/-- The fixed dimension weights of `ContentEvaluationAgent.evaluate`. -/
def contentWeights : List (String × ℚ) :=
  [("coverage", 3/5), ("alignment", 1/4), ("flow", 2/25), ("completeness", 7/100)]

/-- `sum(scores.get(k, 0) * v for k, v in weights.items())` for the fixed
content weights. -/
def contentDimTotal (coverage alignment flow completeness : ℚ) : ℚ :=
  (contentWeights.map (fun kv =>
    (if kv.1 = "coverage" then coverage
     else if kv.1 = "alignment" then alignment
     else if kv.1 = "flow" then flow
     else if kv.1 = "completeness" then completeness
     else 0) * kv.2)).sum

/-- `max_score = sum(weights.values()) * 100` for the content agent. -/
def contentMaxScore : ℚ := ((contentWeights.map Prod.snd).sum) * 100

/-- The body of `ContentEvaluationAgent.evaluate` after the LLM relevance
gate (plagiarism heuristic, coverage with its hard gate, remaining
dimensions, weighting, plagiarism cap, final LLM feedback layer).
`feedback` carries the lines the gate may already have produced. -/
def contentEvaluateCore (ext : Externals) (svc : LLMService)
    (st : AgentState) (inp : ContentInput) (keyConcepts : List String)
    (feedback : List String) : AgentResult × AgentState :=
  let plag :=
    if inp.problem ≠ "" ∧ 0 < inp.content.length then
      let similarity := ext.seqRatio inp.problem inp.content
      if 3/5 < similarity then
        let pct := pyIntTrunc (similarity * 100)
        (true,
         feedback ++
           [s!"⚠️ Content is too similar to the problem statement ({pct}% match). Score penalized."],
         { st with lastVerdict := some "IRRELEVANT" })
      else (false, feedback, st)
    else (false, feedback, st)
  let isPlagiarism := plag.1
  let cov := evaluateConceptCoverage svc plag.2.2 inp.content keyConcepts plag.2.1
  let coverageScore := cov.1
  let st2 := cov.2.2
  if coverageScore = 0 then
    let fb3 := cov.2.1 ++ ["⚠️ Irrelevant submission: No key concepts from the prompt were found."]
    let fb4 :=
      if svc.enabled then
        let llmFeedback := svc.genFeedback
          { contextType := "content"
            submission := inp.content
            rubricCtx := ext.reprContentRubric
            findings := fb3
            missing := st2.lastMissing.getD []
            relevanceStatus := "IRRELEVANT" }
        if llmFeedback ≠ [] then "LLM Explanation:" :: llmFeedback else fb3
      else fb3
    ({ score := 0, maxScore := 100, feedback := fb4 }, st2)
  else
    let al := evaluateAlignment inp.content inp.rubric cov.2.1
    let fl := evaluateLogicalFlow inp.content al.2
    let cp := evaluateCompleteness inp.content fl.2
    let totalScore := contentDimTotal coverageScore al.1 fl.1 cp.1
    let totalScore2 := if isPlagiarism then min totalScore 20 else totalScore
    let maxScore := contentMaxScore
    let fbFinal :=
      if svc.enabled then
        let missingConcepts := st2.lastMissing.getD []
        let findings := cp.2.filter (fun f =>
          strStartsWith f "✓" || strStartsWith f "→" || strStartsWith f "❌")
        let llmFeedback := svc.genFeedback
          { contextType := "content"
            submission := inp.content
            rubricCtx := ext.reprContentRubric
            findings := findings
            missing := missingConcepts
            relevanceStatus := st2.lastVerdict.getD "UNCERTAIN" }
        if llmFeedback ≠ [] then "LLM Explanation:" :: llmFeedback else cp.2
      else cp.2
    ({ score := pyRound2 totalScore2, maxScore := maxScore, feedback := fbFinal },
     st2)

/-- `ContentEvaluationAgent.evaluate`: concept extraction, optional LLM
relevance gate with its `IRRELEVANT` early return, then the core. -/
def contentEvaluate (ext : Externals) (svc : LLMService) (st : AgentState)
    (inp : ContentInput) : AgentResult × AgentState :=
  let keyConcepts := extractKeyConcepts inp.rubric inp.idealReference inp.problem
  if svc.enabled then
    let v := svc.checkRelevance inp.problem inp.content "content"
    let st1 : AgentState := { st with lastVerdict := some v }
    if v = "IRRELEVANT" then
      let fb := ["⚠️ LLM determined content is irrelevant to the prompt. Score: 0."]
      let llmFeedback := svc.genFeedback
        { contextType := "content"
          submission := inp.content
          rubricCtx := ext.reprContentRubric
          findings := fb
          missing := []
          relevanceStatus := "IRRELEVANT" }
      let fb2 := if llmFeedback ≠ [] then "LLM Explanation:" :: llmFeedback else fb
      ({ score := 0, maxScore := 100, feedback := fb2 }, st1)
    else
      let fb :=
        if v = "PARTIAL" then
          ["⚠️ LLM found partial relevance. Proceeding with reduced scoring."]
        else if v = "RELEVANT" then
          ["✓ LLM verified content is relevant to the prompt."]
        else []
      contentEvaluateCore ext svc st1 inp keyConcepts fb
  else
    contentEvaluateCore ext svc st inp keyConcepts []

/-! ## Rubric (`backend/core/utils/rubric.py`) -/

/-- One dimension configuration; `none` models a missing key. -/
structure DimCfg where
  weight : Option ℚ
  maxScore : Option ℚ
deriving DecidableEq, Repr

/-- A rubric dict: its `dimensions` mapping (assoc list in dict order),
`none` when the `dimensions` key is missing. -/
structure RubricDict where
  dimensions : Option (List (String × DimCfg))
deriving DecidableEq, Repr

/-- The per-dimension loop of `Rubric.validate`, accumulating
`total_weight`. -/
def validateDims : List (String × DimCfg) → ℚ → Except String ℚ
  | [], acc => .ok acc
  | (dimName, cfg) :: rest, acc =>
    match cfg.weight with
    | none => .error s!"Dimension {dimName} missing weight"
    | some w =>
      if w < 0 ∨ 1 < w then
        .error s!"Dimension {dimName} weight must be between 0 and 1"
      else
        match cfg.maxScore with
        | none => .error s!"Dimension {dimName} missing max_score"
        | some m =>
          if m ≤ 0 then
            .error s!"Dimension {dimName} max_score must be positive"
          else validateDims rest (acc + w)

/-- `Rubric.validate`, which `Rubric.__init__` runs at construction time:
`ValueError` is modelled as `Except.error`. -/
def rubricValidate (r : RubricDict) : Except String Unit :=
  match r.dimensions with
  | none => .error "Rubric must contain dimensions key"
  | some dims =>
    let found := dims.map Prod.fst
    if ¬ (found.contains "code" ∧ found.contains "content") then
      .error "Rubric missing required dimensions"
    else
      match validateDims dims 0 with
      | .error e => .error e
      | .ok totalWeight =>
        if 1/100 < pyAbs (totalWeight - 1) then
          .error s!"Dimension weights must sum to 1.0"
        else .ok ()

/-! ## Aggregator (`backend/core/agents/aggregator_agent.py`) -/

/-- `AggregatorAgent._normalize_score`. -/
def normalizeScore (score maxScore : ℚ) : ℚ :=
  if maxScore = 0 then 0 else score / maxScore * 100

/-- `AggregatorAgent._get_weights`; `none` models a rubric without a
`weights` list. -/
def aggGetWeights (rubricWeights : Option (List ℚ)) (numAgents : Nat) :
    List ℚ :=
  match rubricWeights with
  | some ws =>
    let ws2 :=
      if ws.length < numAgents then
        let remaining := 1 - ws.sum
        ws ++ List.replicate (numAgents - ws.length)
          (remaining / ((numAgents - ws.length : ℕ) : ℚ))
      else if numAgents < ws.length then ws.take numAgents
      else ws
    let total := ws2.sum
    ws2.map (fun w => w / total)
  | none => List.replicate numAgents (1 / (numAgents : ℚ))

/-- `AggregatorAgent._apply_learning_oriented_normalization`: the forgiving
curve applied to the weighted sum. -/
def applyLearningOrientedNormalization (score : ℚ) : ℚ :=
  if score < 40 then min (score * (11/10)) 40
  else if score < 60 then score * (21/20)
  else score

/-- The per-line loop of `AggregatorAgent._combine_feedback` that separates
an LLM-explanation block from the deterministic lines, returning
`(llm_explanations, final_unique_feedback)`. -/
def extractLLMGo : List String → Bool → List String × List String
  | [], _ => ([], [])
  | f :: rest, inLLM =>
    if strContains f "LLM Explanation:" then extractLLMGo rest true
    else if inLLM then
      if ["✓", "→", "❌", "ℹ", "##", "[", "√"].any (fun s => strStartsWith f s) then
        let (l, fin) := extractLLMGo rest false
        (l, f :: fin)
      else
        let (l, fin) := extractLLMGo rest true
        (f :: l, fin)
    else
      let (l, fin) := extractLLMGo rest false
      (l, f :: fin)

/-- `AggregatorAgent._combine_feedback`. -/
def combineFeedback (feedbackList : List String) : List String :=
  if feedbackList = [] then ["No feedback available."]
  else
    let uniqueFeedback := pyDedup feedbackList
    let strengths := uniqueFeedback.filter (fun f => strStartsWith f "✓")
    let improvements := uniqueFeedback.filter (fun f => strStartsWith f "→")
    let issues := uniqueFeedback.filter
      (fun f => strStartsWith f "❌" || strStartsWith f "[x]")
    let (llmExplanations, finalUnique) := extractLLMGo uniqueFeedback false
    let neutral := finalUnique.filter (fun f =>
      ¬ (["✓", "→", "❌", "ℹ", "##", "["].any (fun s => strStartsWith f s)))
    let info := finalUnique.filter (fun f => strStartsWith f "ℹ")
    let organized :=
      (if llmExplanations ≠ [] then
        ["## AI Evaluator"] ++ llmExplanations ++ [""] else []) ++
      (if strengths ≠ [] then "## Strengths" :: strengths else []) ++
      (if improvements ≠ [] then "## Areas for Improvement" :: improvements else []) ++
      (if issues ≠ [] then "## Issues to Address" :: issues else []) ++
      (if info ≠ [] then "## Additional Notes" :: info else []) ++
      neutral
    if organized ≠ [] then organized else uniqueFeedback

/-- Aggregated output record `{final_score, max_score, combined_feedback}`. -/
structure AggResult where
  finalScore : ℚ
  maxScore : ℚ
  combinedFeedback : List String
deriving DecidableEq, Repr

/-- `AggregatorAgent.evaluate`: normalize each agent output, weight, curve,
and combine feedback. -/
def aggregatorEvaluate (agentOutputs : List AgentResult)
    (rubricWeights : Option (List ℚ)) : AggResult :=
  if agentOutputs = [] then
    { finalScore := 0, maxScore := 100,
      combinedFeedback := ["No agent outputs to evaluate."] }
  else
    let scores := agentOutputs.map (fun o => normalizeScore o.score o.maxScore)
    let allFeedback := (agentOutputs.map AgentResult.feedback).flatten
    let weights := aggGetWeights rubricWeights scores.length
    let finalScore := ((scores.zip weights).map (fun p => p.1 * p.2)).sum
    let finalScore2 := applyLearningOrientedNormalization finalScore
    { finalScore := pyRound2 finalScore2, maxScore := 100,
      combinedFeedback := combineFeedback allFeedback }

/-! ## Orchestrator (`backend/core/controller/orchestrator.py`, mixed) -/

/-- `Path(filename).stem` for a plain posix file name: drop the directory
part and the last extension (only when the last dot is neither the first
nor the last character of the name). -/
def pathStem (filename : String) : String :=
  let nm := ((strSplitOnChar '/' filename).getLastD "")
  let parts := strSplitOnChar '.' nm
  if 2 ≤ parts.length ∧ parts.headD "" ≠ "" ∧ parts.getLastD "" ≠ "" then
    String.intercalate "." (parts.dropLast)
  else nm

/-- `get_student_name_from_filename` (`backend/core/utils/file_parser.py`). -/
def getStudentNameFromFilename (filename : String) : String :=
  pathStem filename ++ "_Result"

/-- The rubric data the orchestrator draws on for mixed evaluation:
per-criterion weight entries of the `code` and `content` dimensions
(`none` for a criterion without a `weight` key) and the top-level dimension
weights `list(rubric.get_weights().values())`. -/
structure OrchRubric where
  codeCriteria : List (String × Option ℚ)
  contentCriteria : List (String × Option ℚ)
  dimWeights : List ℚ

/-- `{k: v.get("weight", 0.25) for k, v in criteria.items()}`. -/
def criteriaWeights (criteria : List (String × Option ℚ)) :
    List (String × ℚ) :=
  criteria.map (fun kv => (kv.1, kv.2.getD (1/4)))

/-- Per-student result record of `_evaluate_mixed_submissions`. -/
structure MixedResult where
  agentCount : Nat
  finalScore : ℚ
  maxScore : ℚ
  combinedFeedback : List String
deriving DecidableEq, Repr

/-- The names derived from every code or text submission, deduplicated
(`all_students`; Python set order modelled as first-seen). -/
def mixedStudents (codeSubs contentSubs : List (String × String)) :
    List String :=
  pyDedup
    ((codeSubs.map (fun p => getStudentNameFromFilename p.1)) ++
     (contentSubs.map (fun p => getStudentNameFromFilename p.1)))

/-- The body of the per-student loop of `_evaluate_mixed_submissions`:
evaluate the first matching code file and the first matching text file (the
source loops break after the first match), aggregate with the rubric
dimension weights.  Returns the optional result together with the updated
code-agent and content-agent states. -/
def evalStudentMixed (ext : Externals) (svc : LLMService) (r : OrchRubric)
    (problem idealReference : String)
    (codeSubs contentSubs : List (String × String)) (student : String)
    (stC stT : AgentState) :
    Option MixedResult × AgentState × AgentState :=
  let codeRun : Option AgentResult × AgentState :=
    match codeSubs.find? (fun p => getStudentNameFromFilename p.1 = student) with
    | none => (none, stC)
    | some fc =>
      let inp : CodeInput :=
        { problem := problem
          rubricWeights := some (criteriaWeights r.codeCriteria)
          code := fc.2
          filename := fc.1 }
      let run := codeEvaluate ext svc stC inp
      (some run.1, run.2)
  let contentRun : Option AgentResult × AgentState :=
    match contentSubs.find? (fun p => getStudentNameFromFilename p.1 = student) with
    | none => (none, stT)
    | some fc =>
      let inp : ContentInput :=
        { content := fc.2
          rubric := none
          idealReference := idealReference
          problem := problem }
      let run := contentEvaluate ext svc stT inp
      (some run.1, run.2)
  let agentOutputs := codeRun.1.toList ++ contentRun.1.toList
  if agentOutputs = [] then (none, codeRun.2, contentRun.2)
  else
    let agg := aggregatorEvaluate agentOutputs (some r.dimWeights)
    (some { agentCount := agentOutputs.length
            finalScore := agg.finalScore
            maxScore := agg.maxScore
            combinedFeedback := agg.combinedFeedback },
     codeRun.2, contentRun.2)

/-- The loop of `_evaluate_mixed_submissions` over all students, threading
the two shared agent instances. -/
def evalMixedGo (ext : Externals) (svc : LLMService) (r : OrchRubric)
    (problem idealReference : String)
    (codeSubs contentSubs : List (String × String)) :
    List String → AgentState → AgentState → List (String × MixedResult)
  | [], _, _ => []
  | s :: rest, stC, stT =>
    match evalStudentMixed ext svc r problem idealReference codeSubs
        contentSubs s stC stT with
    | (some res, stC', stT') =>
      (s, res) ::
        evalMixedGo ext svc r problem idealReference codeSubs contentSubs
          rest stC' stT'
    | (none, stC', stT') =>
      evalMixedGo ext svc r problem idealReference codeSubs contentSubs
        rest stC' stT'

/-- `Orchestrator._evaluate_mixed_submissions` for a freshly constructed
orchestrator (both agents start with no instance attributes). -/
def evaluateMixedSubmissions (ext : Externals) (svc : LLMService)
    (r : OrchRubric) (problem idealReference : String)
    (codeSubs contentSubs : List (String × String)) :
    List (String × MixedResult) :=
  evalMixedGo ext svc r problem idealReference codeSubs contentSubs
    (mixedStudents codeSubs contentSubs) freshAgent freshAgent

/-- The state-independent per-student result (used to state that, with the
elaboration service disabled, the threaded agent states do not influence
any student's result). -/
def mixedStudentResult (ext : Externals) (svc : LLMService) (r : OrchRubric)
    (problem idealReference : String)
    (codeSubs contentSubs : List (String × String)) (student : String) :
    Option MixedResult :=
  (evalStudentMixed ext svc r problem idealReference codeSubs contentSubs
    student freshAgent freshAgent).1

/-! ## Concrete instances used by witnesses and counterexamples -/

/-- External oracles for sources that do not parse (`ast.parse` raises on
every text passed here), with trivial regex scans and similarity 0. -/
def extNone : Externals :=
  { pyAst := fun _ => none
    cppScan := fun _ => ⟨0, 0, 0, 0⟩
    seqRatio := fun _ _ => 0
    reprCodeRubric := fun _ => ""
    reprContentRubric := "" }

/-- External oracles for the snippet `"# alpha beta\nx = 1"`, which
`ast.parse` accepts with one `Assign` node and no definitions or control
flow; everything else fails to parse. -/
def extAssign : Externals :=
  { extNone with
    pyAst := fun s =>
      if s = "# alpha beta\nx = 1" then some ⟨0, 0, 1, 0⟩ else none }

/-- External oracles for the snippet `"alpha"`, a bare expression
statement accepted by `ast.parse` with no counted nodes. -/
def extAlpha : Externals :=
  { extNone with
    pyAst := fun s => if s = "alpha" then some ⟨0, 0, 0, 0⟩ else none }

/-- External oracles whose sequence-similarity answer is always `9/10`. -/
def extSimilar : Externals := { extNone with seqRatio := fun _ _ => 9/10 }

/-- A disabled LLM service (`LLM_ENABLED` unset). -/
def svcOff : LLMService :=
  { enabled := false
    checkRelevance := fun _ _ _ => "UNCERTAIN"
    genFeedback := fun _ => [] }

/-- An enabled LLM service that always answers `UNCERTAIN` and whose
elaboration echoes the missing-concepts list it receives. -/
def svcEcho : LLMService :=
  { enabled := true
    checkRelevance := fun _ _ _ => "UNCERTAIN"
    genFeedback := fun a => a.missing }


/-! ## Pipeline lemmas -/

/-- `_evaluate_readability` only appends to the feedback it is given, and
its score does not depend on that feedback. -/
theorem evaluateReadability_decomp (ext : Externals) (code : String)
    (lang : Lang) :
    ∃ s add, ∀ fb, evaluateReadability ext code fb lang = (s, fb ++ add) := by
  refine ⟨(evaluateReadability ext code [] lang).1,
    (evaluateReadability ext code [] lang).2, fun fb => ?_⟩
  cases lang <;>
    · simp only [evaluateReadability]
      split_ifs <;> simp

/-- `_evaluate_structure` only appends to the feedback it is given. -/
theorem evaluateStructure_decomp (ext : Externals) (code : String)
    (lang : Lang) :
    ∃ s add, ∀ fb, evaluateStructure ext code fb lang = (s, fb ++ add) := by
  refine ⟨(evaluateStructure ext code [] lang).1,
    (evaluateStructure ext code [] lang).2, fun fb => ?_⟩
  cases lang
  · cases h : ext.pyAst code
    · simp [evaluateStructure, h]
    · simp only [evaluateStructure, h]
      split_ifs <;> simp
  · simp only [evaluateStructure]
    split_ifs <;> simp

/-- `_evaluate_effort` only appends to the feedback it is given. -/
theorem evaluateEffort_decomp (ext : Externals) (code : String)
    (lang : Lang) :
    ∃ s add, ∀ fb, evaluateEffort ext code fb lang = (s, fb ++ add) := by
  refine ⟨(evaluateEffort ext code [] lang).1,
    (evaluateEffort ext code [] lang).2, fun fb => ?_⟩
  cases lang
  · cases h : ext.pyAst code <;>
      · simp only [evaluateEffort, h]
        split_ifs <;> simp
  · simp only [evaluateEffort]
    split_ifs <;> simp

/-- The shared keyword block appends to its feedback, its score does not
depend on feedback or state, and it always stores the missing keywords. -/
theorem approachKeywordBlock_decomp (code problem : String)
    (v : Option String) :
    ∃ s add, ∀ st fb, approachKeywordBlock st code problem v fb =
      (s, fb ++ add,
       { st with lastMissing := some (missingKeywords problem code) }) := by
  refine ⟨(approachKeywordBlock freshAgent code problem v []).1,
    (approachKeywordBlock freshAgent code problem v []).2.1, fun st fb => ?_⟩
  simp only [approachKeywordBlock]
  split_ifs <;> simp

/-- `_evaluate_approach_python`: appends to feedback, score independent of
feedback and state, and the state update is a function of the inputs. -/
theorem evaluateApproachPython_decomp (ext : Externals)
    (code problem : String) (v : Option String) :
    ∃ (s : ℚ) (add : List String) (upd : AgentState → AgentState),
      ∀ st fb, evaluateApproachPython ext st code problem v fb =
        (s, fb ++ add, upd st) := by
  cases h : ext.pyAst code
  · exact ⟨0, ["Code has syntax errors. Review and fix them."], id,
      fun st fb => by simp [evaluateApproachPython, h]⟩
  · obtain ⟨s, add, hblock⟩ := approachKeywordBlock_decomp code problem v
    exact ⟨s, add,
      fun st => { st with lastMissing := some (missingKeywords problem code) },
      fun st fb => by simp only [evaluateApproachPython, h]; exact hblock st fb⟩

/-- `_evaluate_approach` with the LLM disabled: appends to feedback, score
independent of feedback and state, state update a function of the inputs. -/
theorem evaluateApproach_disabled_decomp (ext : Externals)
    (svc : LLMService) (code problem : String) (lang : Lang)
    (hE : svc.enabled = false) :
    ∃ (s : ℚ) (add : List String) (upd : AgentState → AgentState),
      ∀ st fb, evaluateApproach ext svc st code problem lang fb =
        (s, fb ++ add, upd st) := by
  cases lang
  · obtain ⟨s, add, upd, h⟩ := evaluateApproachPython_decomp ext code problem none
    exact ⟨s, add, upd, fun st fb => by
      simp only [evaluateApproach, hE, Bool.false_eq_true, if_false]
      exact h st fb⟩
  · obtain ⟨s, add, hblock⟩ := approachKeywordBlock_decomp code problem none
    exact ⟨s, add,
      fun st => { st with lastMissing := some (missingKeywords problem code) },
      fun st fb => by
        simp only [evaluateApproach, hE, Bool.false_eq_true, if_false]
        exact hblock st fb⟩

/-- With the LLM disabled, one code evaluation differs across incoming
agent states only in its resulting state. -/
theorem codeParts_decomp (ext : Externals) (svc : LLMService)
    (inp : CodeInput) (hE : svc.enabled = false) :
    ∃ (p0 : CodeParts) (upd : AgentState → AgentState),
      ∀ st, codeParts ext svc st inp = { p0 with state := upd st } := by
  obtain ⟨s, add, upd, hap⟩ := evaluateApproach_disabled_decomp ext svc
    inp.code inp.problem (detectLanguage inp.code inp.filename) hE
  refine ⟨codeParts ext svc freshAgent inp, upd, fun st => ?_⟩
  simp [codeParts, hap]

/-- With the LLM disabled, the result record of `CodeEvaluationAgent
.evaluate` does not depend on the incoming instance state. -/
theorem codeEvaluate_result_disabled (ext : Externals) (svc : LLMService)
    (st st' : AgentState) (inp : CodeInput) (hE : svc.enabled = false) :
    (codeEvaluate ext svc st inp).1 = (codeEvaluate ext svc st' inp).1 := by
  obtain ⟨p0, upd, hp⟩ := codeParts_decomp ext svc inp hE
  simp [codeEvaluate, hp st, hp st', hE, codeScoreOf]

set_option maxHeartbeats 1000000 in
/-- The approach score always lies in `[0, 100]`. -/
theorem evaluateApproach_score_bounds (ext : Externals) (svc : LLMService)
    (st : AgentState) (code problem : String) (lang : Lang)
    (fb : List String) :
    0 ≤ (evaluateApproach ext svc st code problem lang fb).1 ∧
      (evaluateApproach ext svc st code problem lang fb).1 ≤ 100 := by
  have hblock : ∀ (st' : AgentState) (fb' : List String) (v : Option String),
      0 ≤ (approachKeywordBlock st' code problem v fb').1 ∧
        (approachKeywordBlock st' code problem v fb').1 ≤ 100 := by
    intro st' fb' v
    simp only [approachKeywordBlock]
    split_ifs <;> simp [min_def] <;> norm_num
  have hpy : ∀ (st' : AgentState) (fb' : List String) (v : Option String),
      0 ≤ (evaluateApproachPython ext st' code problem v fb').1 ∧
        (evaluateApproachPython ext st' code problem v fb').1 ≤ 100 := by
    intro st' fb' v
    cases h : ext.pyAst code
    · simp [evaluateApproachPython, h]
    · simp only [evaluateApproachPython, h]
      exact hblock _ _ _
  cases lang
  · simp only [evaluateApproach]
    split_ifs <;> first
      | exact hpy _ _ _
      | norm_num
  · simp only [evaluateApproach, evaluateApproachCpp]
    split_ifs <;> first
      | exact hblock _ _ _
      | norm_num

/-- The raw readability score lies in `[0, 100]`. -/
theorem evaluateReadability_score_bounds (ext : Externals) (code : String)
    (fb : List String) (lang : Lang) :
    0 ≤ (evaluateReadability ext code fb lang).1 ∧
      (evaluateReadability ext code fb lang).1 ≤ 100 := by
  cases lang <;>
    · simp only [evaluateReadability]
      split_ifs <;> simp [min_def] <;> norm_num

/-- The raw structure score lies in `[0, 100]`. -/
theorem evaluateStructure_score_bounds (ext : Externals) (code : String)
    (fb : List String) (lang : Lang) :
    0 ≤ (evaluateStructure ext code fb lang).1 ∧
      (evaluateStructure ext code fb lang).1 ≤ 100 := by
  cases lang
  · cases h : ext.pyAst code
    · simp [evaluateStructure, h]
    · simp only [evaluateStructure, h]
      split_ifs <;> simp [min_def] <;> norm_num
  · simp only [evaluateStructure]
    split_ifs <;> simp [min_def] <;> norm_num

/-- The raw effort score lies in `[0, 100]`. -/
theorem evaluateEffort_score_bounds (ext : Externals) (code : String)
    (fb : List String) (lang : Lang) :
    0 ≤ (evaluateEffort ext code fb lang).1 ∧
      (evaluateEffort ext code fb lang).1 ≤ 100 := by
  cases lang
  · cases h : ext.pyAst code <;>
      · simp only [evaluateEffort, h]
        split_ifs <;> simp [min_def] <;> norm_num
  · simp only [evaluateEffort]
    split_ifs <;> simp [min_def] <;> norm_num

/-- The relevance multiplier lies in `[0, 1]` for non-negative approach
scores. -/
theorem relevanceMultiplier_bounds {a : ℚ} (h0 : 0 ≤ a) :
    0 ≤ relevanceMultiplier a ∧ relevanceMultiplier a ≤ 1 := by
  unfold relevanceMultiplier
  split_ifs with h
  · norm_num
  · push_neg at h
    constructor
    · positivity
    · linarith

/-- The gated readability score lies in `[0, 100]`. -/
theorem gatedReadability_bounds {a raw : ℚ} (ha : 0 ≤ a)
    (hr0 : 0 ≤ raw) (hr1 : raw ≤ 100) :
    0 ≤ gatedReadability a raw ∧ gatedReadability a raw ≤ 100 := by
  unfold gatedReadability
  obtain ⟨hm0, hm1⟩ := relevanceMultiplier_bounds ha
  split_ifs
  · exact ⟨le_min hr0 (by norm_num), le_trans (min_le_left _ _) hr1⟩
  · constructor
    · exact mul_nonneg hr0 hm0
    · calc raw * relevanceMultiplier a ≤ 100 * 1 :=
          mul_le_mul hr1 hm1 hm0 (by norm_num)
        _ = 100 := by norm_num

/-- The gated structure/effort score lies in `[0, 100]`. -/
theorem gatedByRelevance_bounds {a raw : ℚ} (ha : 0 ≤ a)
    (hr0 : 0 ≤ raw) (hr1 : raw ≤ 100) :
    0 ≤ gatedByRelevance a raw ∧ gatedByRelevance a raw ≤ 100 := by
  unfold gatedByRelevance
  obtain ⟨hm0, hm1⟩ := relevanceMultiplier_bounds ha
  constructor
  · exact mul_nonneg hr0 hm0
  · calc raw * relevanceMultiplier a ≤ 100 * 1 :=
        mul_le_mul hr1 hm1 hm0 (by norm_num)
      _ = 100 := by norm_num

/-- A weighted sum of `[0, 100]` scores with non-negative weights lies
between `0` and `100` times the weight total. -/
theorem weighted_sum_bounds (f : String → ℚ)
    (hf : ∀ k, 0 ≤ f k ∧ f k ≤ 100) (ws : List (String × ℚ))
    (hw : ∀ kv ∈ ws, 0 ≤ kv.2) :
    0 ≤ (ws.map (fun kv => f kv.1 * kv.2)).sum ∧
      (ws.map (fun kv => f kv.1 * kv.2)).sum ≤ ((ws.map Prod.snd).sum) * 100 := by
  induction ws with
  | nil => simp
  | cons a as ih =>
    have ha := hw a (List.mem_cons_self _ _)
    have ih' := ih (fun kv hkv => hw kv (List.mem_cons_of_mem _ hkv))
    obtain ⟨hfa0, hfa1⟩ := hf a.1
    simp only [List.map_cons, List.sum_cons]
    constructor
    · have h1 : 0 ≤ f a.1 * a.2 := mul_nonneg hfa0 ha
      linarith [ih'.1]
    · have h1 : f a.1 * a.2 ≤ 100 * a.2 := by
        apply mul_le_mul_of_nonneg_right hfa1 ha
      have h2 := ih'.2
      ring_nf
      nlinarith

/-- `_evaluate_concept_coverage` scores exactly `conceptCoverageScore`,
appends to its feedback, and its state update is a function of the
inputs. -/
theorem evaluateConceptCoverage_decomp (svc : LLMService) (content : String)
    (keyConcepts : List String) :
    ∃ (add : List String) (upd : AgentState → AgentState), ∀ st fb,
      evaluateConceptCoverage svc st content keyConcepts fb =
        (conceptCoverageScore content keyConcepts, fb ++ add, upd st) := by
  by_cases hk : keyConcepts = []
  · exact ⟨["ℹ No key concepts specified for comparison."], id, fun st fb => by
      simp [evaluateConceptCoverage, conceptCoverageScore, hk]⟩
  · refine ⟨(evaluateConceptCoverage svc freshAgent content keyConcepts []).2.1,
      fun st =>
        { st with lastMissing := some (missingConceptsOf content keyConcepts) },
      fun st fb => ?_⟩
    simp only [evaluateConceptCoverage, conceptCoverageScore, hk, if_neg,
      if_false]
    split_ifs <;> simp

/-- Capping at 100 keeps a non-negative value inside `[0, 100]`. -/
theorem min100_bounds {x : ℚ} (hx : 0 ≤ x) :
    0 ≤ min x 100 ∧ min x 100 ≤ 100 :=
  ⟨le_min hx (by norm_num), min_le_right _ _⟩

/-- The concept-coverage score lies in `[0, 100]`. -/
theorem conceptCoverageScore_bounds (content : String)
    (keyConcepts : List String) :
    0 ≤ conceptCoverageScore content keyConcepts ∧
      conceptCoverageScore content keyConcepts ≤ 100 := by
  unfold conceptCoverageScore
  by_cases hk : keyConcepts = []
  · simp [hk]
    norm_num
  · simp only [hk, if_false]
    refine min100_bounds ?_
    split_ifs <;> norm_num

/-- The alignment score lies in `[0, 100]`. -/
theorem evaluateAlignment_score_bounds (content : String)
    (rubric : Option ContentRubricData) (fb : List String) :
    0 ≤ (evaluateAlignment content rubric fb).1 ∧
      (evaluateAlignment content rubric fb).1 ≤ 100 := by
  cases rubric
  · constructor <;> norm_num [evaluateAlignment]
  · rename_i rd
    simp only [evaluateAlignment]
    cases rd.learningObjectives <;> cases rd.requiredSections <;>
      · simp only
        first
          | (split_ifs <;> exact min100_bounds (by norm_num))
          | exact min100_bounds (by norm_num)

set_option maxHeartbeats 1000000 in
/-- The logical-flow score lies in `[0, 100]`. -/
theorem evaluateLogicalFlow_score_bounds (content : String)
    (fb : List String) :
    0 ≤ (evaluateLogicalFlow content fb).1 ∧
      (evaluateLogicalFlow content fb).1 ≤ 100 := by
  simp only [evaluateLogicalFlow]
  split_ifs <;> exact min100_bounds (by norm_num)

set_option maxHeartbeats 1000000 in
/-- The completeness score lies in `[0, 100]`. -/
theorem evaluateCompleteness_score_bounds (content : String)
    (fb : List String) :
    0 ≤ (evaluateCompleteness content fb).1 ∧
      (evaluateCompleteness content fb).1 ≤ 100 := by
  simp only [evaluateCompleteness]
  split_ifs <;> exact min100_bounds (by norm_num)

/-- The content weight total is exactly 1, so the content `max_score` is
100. -/
theorem contentMaxScore_eq : contentMaxScore = 100 := by
  norm_num [contentMaxScore, contentWeights]

/-- The weighted content total lies in `[0, 100]` when every dimension
score does. -/
theorem contentDimTotal_bounds {cov al fl cp : ℚ}
    (h1 : 0 ≤ cov ∧ cov ≤ 100) (h2 : 0 ≤ al ∧ al ≤ 100)
    (h3 : 0 ≤ fl ∧ fl ≤ 100) (h4 : 0 ≤ cp ∧ cp ≤ 100) :
    0 ≤ contentDimTotal cov al fl cp ∧ contentDimTotal cov al fl cp ≤ 100 := by
  obtain ⟨a0, a1⟩ := h1
  obtain ⟨b0, b1⟩ := h2
  obtain ⟨c0, c1⟩ := h3
  obtain ⟨d0, d1⟩ := h4
  simp only [contentDimTotal, contentWeights, List.map_cons, List.map_nil,
    List.sum_cons, List.sum_nil]
  rw [if_neg (by decide : ¬("alignment" : String) = "coverage"),
    if_neg (by decide : ¬("flow" : String) = "coverage"),
    if_neg (by decide : ¬("flow" : String) = "alignment"),
    if_neg (by decide : ¬("completeness" : String) = "coverage"),
    if_neg (by decide : ¬("completeness" : String) = "alignment"),
    if_neg (by decide : ¬("completeness" : String) = "flow")]
  simp only [ite_true]
  constructor <;> nlinarith

/-- A bounded weighted total stays within the content `max_score` after
rounding. -/
theorem pyRound2_content_bounds {T : ℚ} (h0 : 0 ≤ T) (h1 : T ≤ 100) :
    0 ≤ pyRound2 T ∧ pyRound2 T ≤ contentMaxScore := by
  rw [contentMaxScore_eq]
  refine ⟨pyRound2_nonneg h0, pyRound2_le_int (n := 100) ?_⟩
  exact_mod_cast h1

/-- Same, for the plagiarism-capped total. -/
theorem pyRound2_min20_content_bounds {T : ℚ} (h0 : 0 ≤ T) :
    0 ≤ pyRound2 (min T 20) ∧ pyRound2 (min T 20) ≤ contentMaxScore :=
  pyRound2_content_bounds (le_min h0 (by norm_num))
    (le_trans (min_le_right _ _) (by norm_num))

/-- Bounds for the possibly plagiarism-capped rounded total. -/
theorem pyRound2_ite_content_bounds {P : Prop} [Decidable P] {T : ℚ}
    (h0 : 0 ≤ T) (h1 : T ≤ 100) :
    0 ≤ pyRound2 (if P then min T 20 else T) ∧
      pyRound2 (if P then min T 20 else T) ≤ contentMaxScore := by
  split_ifs
  · exact pyRound2_min20_content_bounds h0
  · exact pyRound2_content_bounds h0 h1

set_option maxHeartbeats 1000000 in
/-- The body of the content evaluation after the gate returns a score in
`[0, max_score]`. -/
theorem contentEvaluateCore_score_bounds (ext : Externals)
    (svc : LLMService) (st : AgentState) (inp : ContentInput)
    (kc : List String) (fb : List String) :
    0 ≤ (contentEvaluateCore ext svc st inp kc fb).1.score ∧
      (contentEvaluateCore ext svc st inp kc fb).1.score ≤
        (contentEvaluateCore ext svc st inp kc fb).1.maxScore := by
  obtain ⟨addC, updC, hcov⟩ := evaluateConceptCoverage_decomp svc inp.content kc
  have hcb := conceptCoverageScore_bounds inp.content kc
  have hal := fun fb' => evaluateAlignment_score_bounds inp.content inp.rubric fb'
  have hfl := fun fb' => evaluateLogicalFlow_score_bounds inp.content fb'
  have hcp := fun fb' => evaluateCompleteness_score_bounds inp.content fb'
  simp only [contentEvaluateCore, hcov]
  by_cases hcov0 : conceptCoverageScore inp.content kc = 0
  · simp only [if_pos hcov0]
    norm_num
  · simp only [if_neg hcov0]
    exact pyRound2_ite_content_bounds
      (contentDimTotal_bounds hcb (hal _) (hfl _) (hcp _)).1
      (contentDimTotal_bounds hcb (hal _) (hfl _) (hcp _)).2

/-- `ContentEvaluationAgent.evaluate` returns a score in
`[0, max_score]`. -/
theorem contentEvaluate_score_bounds (ext : Externals) (svc : LLMService)
    (st : AgentState) (inp : ContentInput) :
    0 ≤ (contentEvaluate ext svc st inp).1.score ∧
      (contentEvaluate ext svc st inp).1.score ≤
        (contentEvaluate ext svc st inp).1.maxScore := by
  simp only [contentEvaluate]
  by_cases hE : svc.enabled = true
  · simp only [if_pos hE]
    by_cases hv :
        svc.checkRelevance inp.problem inp.content "content" = "IRRELEVANT"
    · simp only [if_pos hv]
      norm_num
    · simp only [if_neg hv]
      exact contentEvaluateCore_score_bounds ext svc _ inp _ _
  · simp only [if_neg hE]
    exact contentEvaluateCore_score_bounds ext svc st inp _ _

/-- With the LLM disabled, the content core result does not depend on the
incoming instance state. -/
theorem contentEvaluateCore_result_disabled (ext : Externals)
    (svc : LLMService) (st st' : AgentState) (inp : ContentInput)
    (kc : List String) (fb : List String) (hE : svc.enabled = false) :
    (contentEvaluateCore ext svc st inp kc fb).1 =
      (contentEvaluateCore ext svc st' inp kc fb).1 := by
  obtain ⟨addC, updC, hcov⟩ := evaluateConceptCoverage_decomp svc inp.content kc
  simp only [contentEvaluateCore, hcov, hE, Bool.false_eq_true, if_false]
  split_ifs <;> rfl

/-- With the LLM disabled, the result record of `ContentEvaluationAgent
.evaluate` does not depend on the incoming instance state. -/
theorem contentEvaluate_result_disabled (ext : Externals)
    (svc : LLMService) (st st' : AgentState) (inp : ContentInput)
    (hE : svc.enabled = false) :
    (contentEvaluate ext svc st inp).1 = (contentEvaluate ext svc st' inp).1 := by
  simp only [contentEvaluate, hE, Bool.false_eq_true, if_false]
  exact contentEvaluateCore_result_disabled ext svc st st' inp _ _ hE

/-- Every entry of the code agent's `scores` dict lies in `[0, 100]`. -/
theorem codeScoreOf_bounds (ext : Externals) (svc : LLMService)
    (st : AgentState) (inp : CodeInput) (k : String) :
    0 ≤ codeScoreOf (codeParts ext svc st inp) k ∧
      codeScoreOf (codeParts ext svc st inp) k ≤ 100 := by
  have happ : 0 ≤ (codeParts ext svc st inp).approach ∧
      (codeParts ext svc st inp).approach ≤ 100 :=
    evaluateApproach_score_bounds ext svc st inp.code inp.problem
      (detectLanguage inp.code inp.filename) []
  have hrd : 0 ≤ (codeParts ext svc st inp).readabilityRaw ∧
      (codeParts ext svc st inp).readabilityRaw ≤ 100 :=
    evaluateReadability_score_bounds ext inp.code _ _
  have hst : 0 ≤ (codeParts ext svc st inp).structureRaw ∧
      (codeParts ext svc st inp).structureRaw ≤ 100 :=
    evaluateStructure_score_bounds ext inp.code _ _
  have hef : 0 ≤ (codeParts ext svc st inp).effortRaw ∧
      (codeParts ext svc st inp).effortRaw ≤ 100 :=
    evaluateEffort_score_bounds ext inp.code _ _
  have hread : 0 ≤ (codeParts ext svc st inp).readabilityScore ∧
      (codeParts ext svc st inp).readabilityScore ≤ 100 := by
    have h : (codeParts ext svc st inp).readabilityScore =
        gatedReadability (codeParts ext svc st inp).approach
          (codeParts ext svc st inp).readabilityRaw := rfl
    rw [h]
    exact gatedReadability_bounds happ.1 hrd.1 hrd.2
  have hstruct : 0 ≤ (codeParts ext svc st inp).structureScore ∧
      (codeParts ext svc st inp).structureScore ≤ 100 := by
    have h : (codeParts ext svc st inp).structureScore =
        gatedByRelevance (codeParts ext svc st inp).approach
          (codeParts ext svc st inp).structureRaw := rfl
    rw [h]
    exact gatedByRelevance_bounds happ.1 hst.1 hst.2
  have heff : 0 ≤ (codeParts ext svc st inp).effortScore ∧
      (codeParts ext svc st inp).effortScore ≤ 100 := by
    have h : (codeParts ext svc st inp).effortScore =
        gatedByRelevance (codeParts ext svc st inp).approach
          (codeParts ext svc st inp).effortRaw := rfl
    rw [h]
    exact gatedByRelevance_bounds happ.1 hef.1 hef.2
  unfold codeScoreOf
  split_ifs <;> first
    | exact happ
    | exact hread
    | exact hstruct
    | exact heff
    | norm_num

/-- `CodeEvaluationAgent.evaluate` returns, under non-negative criterion
weights, a score in `[0, max_score + 1/200]` (the slack is the final
two-decimal rounding). -/
theorem codeEvaluate_score_bounds (ext : Externals) (svc : LLMService)
    (st : AgentState) (inp : CodeInput)
    (hw : ∀ kv ∈ inp.rubricWeights.getD defaultCodeWeights, 0 ≤ kv.2) :
    0 ≤ (codeEvaluate ext svc st inp).1.score ∧
      (codeEvaluate ext svc st inp).1.score ≤
        (codeEvaluate ext svc st inp).1.maxScore + 1/200 := by
  have hsum := weighted_sum_bounds (codeScoreOf (codeParts ext svc st inp))
    (codeScoreOf_bounds ext svc st inp)
    (inp.rubricWeights.getD defaultCodeWeights) hw
  have hscore : (codeEvaluate ext svc st inp).1.score =
      pyRound2 (((inp.rubricWeights.getD defaultCodeWeights).map
        (fun kv => codeScoreOf (codeParts ext svc st inp) kv.1 * kv.2)).sum) := rfl
  have hmax : (codeEvaluate ext svc st inp).1.maxScore =
      (((inp.rubricWeights.getD defaultCodeWeights).map Prod.snd).sum) * 100 := rfl
  rw [hscore, hmax]
  constructor
  · exact pyRound2_nonneg hsum.1
  · have h1 := pyRound2_le_add
      (((inp.rubricWeights.getD defaultCodeWeights).map
        (fun kv => codeScoreOf (codeParts ext svc st inp) kv.1 * kv.2)).sum)
    linarith [hsum.2]

/-! ## List and dict helper lemmas -/

/-- Membership after first-seen deduplication implies membership. -/
theorem mem_of_mem_pyDedupGo {a : String} :
    ∀ (l : List String) (seen : List String), a ∈ pyDedupGo seen l → a ∈ l := by
  intro l
  induction l with
  | nil => intro seen h; simp [pyDedupGo] at h
  | cons b bs ih =>
    intro seen h
    simp only [pyDedupGo] at h
    split_ifs at h with hb
    · exact List.mem_cons_of_mem _ (ih _ h)
    · rcases List.mem_cons.mp h with rfl | h'
      · exact List.mem_cons_self _ _
      · exact List.mem_cons_of_mem _ (ih _ h')

/-- Membership in `pyDedup l` implies membership in `l`. -/
theorem mem_of_mem_pyDedup {a : String} {l : List String}
    (h : a ∈ pyDedup l) : a ∈ l :=
  mem_of_mem_pyDedupGo l [] h

/-- A member satisfying the predicate makes `find?` succeed. -/
theorem find?_isSome_of_mem {α} (p : α → Bool) {l : List α} {x : α}
    (hx : x ∈ l) (hp : p x = true) : (l.find? p).isSome = true :=
  List.find?_isSome.mpr ⟨x, hx, hp⟩

/-- `find?` over an append keeps the left result when the left part already
has a hit. -/
theorem find?_append_of_isSome {α} (p : α → Bool) {l1 : List α}
    (l2 : List α) (h : (l1.find? p).isSome = true) :
    (l1 ++ l2).find? p = l1.find? p := by
  rw [List.find?_append]
  cases hf : l1.find? p with
  | none => rw [hf] at h; exact Bool.noConfusion h
  | some a => rfl

/-- Total weight attached to key `k` in a weight list (for a Python dict
there is at most one entry per key). -/
def weightOfKey (ws : List (String × ℚ)) (k : String) : ℚ :=
  ((ws.filter (fun kv => kv.1 = k)).map Prod.snd).sum

theorem weightOfKey_cons (a : String × ℚ) (ws : List (String × ℚ))
    (k : String) :
    weightOfKey (a :: ws) k =
      (if a.1 = k then a.2 else 0) + weightOfKey ws k := by
  simp only [weightOfKey, List.filter_cons, decide_eq_true_eq]
  split_ifs with h
  · simp
  · simp

/-- When only key `k` can score, the weighted total collapses to that
score times the weight attached to `k`. -/
theorem sum_single_key (f : String → ℚ) (k : String)
    (hf : ∀ j, j ≠ k → f j = 0) (ws : List (String × ℚ)) :
    (ws.map (fun kv => f kv.1 * kv.2)).sum = f k * weightOfKey ws k := by
  induction ws with
  | nil => simp [weightOfKey]
  | cons a as ih =>
    by_cases h : a.1 = k
    · rw [List.map_cons, List.sum_cons, ih, weightOfKey_cons, h, if_pos rfl]
      ring
    · rw [List.map_cons, List.sum_cons, ih, weightOfKey_cons, if_neg h,
        hf a.1 h]
      ring

/-- Decidable equality for validation outcomes. -/
instance : DecidableEq (Except String Unit) := fun a b =>
  match a, b with
  | .ok (), .ok () => .isTrue rfl
  | .error x, .error y =>
      if h : x = y then .isTrue (by rw [h]) else .isFalse (by simp [h])
  | .ok _, .error _ => .isFalse (by simp)
  | .error _, .ok _ => .isFalse (by simp)

/-! ## Rubric validation lemmas -/

/-- What a successful run of the validation loop guarantees: every
dimension has a weight in `[0, 1]` and a positive max score, and the
accumulator equals the sum of the weights. -/
theorem validateDims_ok (dims : List (String × DimCfg)) :
    ∀ (acc t : ℚ), validateDims dims acc = .ok t →
      (∀ p ∈ dims, ∃ w m, p.2.weight = some w ∧ p.2.maxScore = some m ∧
        0 ≤ w ∧ w ≤ 1 ∧ 0 < m) ∧
      t = acc + (dims.map (fun p => p.2.weight.getD 0)).sum := by
  induction dims with
  | nil =>
    intro acc t h
    simp only [validateDims, Except.ok.injEq] at h
    simp [h]
  | cons a as ih =>
    intro acc t h
    simp only [validateDims] at h
    split at h
    · exact Except.noConfusion h
    · rename_i w hw
      split_ifs at h with hrange
      split at h
      · exact Except.noConfusion h
      · rename_i m hm
        split_ifs at h with hmpos
        push_neg at hrange hmpos
        obtain ⟨hall, hsum⟩ := ih (acc + w) t h
        constructor
        · intro p hp
          rcases List.mem_cons.mp hp with rfl | hp'
          · exact ⟨w, m, hw, hm, hrange.1, hrange.2, hmpos⟩
          · exact hall p hp'
        · simp only [List.map_cons, List.sum_cons, hw, Option.getD_some]
          rw [hsum]
          ring

/-- What a successful `Rubric.validate` guarantees. -/
theorem rubricValidate_ok (dims : List (String × DimCfg))
    (h : rubricValidate ⟨some dims⟩ = .ok ()) :
    ((dims.map Prod.fst).contains "code" ∧
      (dims.map Prod.fst).contains "content") ∧
    (∀ p ∈ dims, ∃ w m, p.2.weight = some w ∧ p.2.maxScore = some m ∧
      0 ≤ w ∧ w ≤ 1 ∧ 0 < m) ∧
    |(dims.map (fun p => p.2.weight.getD 0)).sum - 1| ≤ 1/100 := by
  simp only [rubricValidate] at h
  split_ifs at h with hdims
  split at h
  · exact Except.noConfusion h
  · rename_i t hv
    split_ifs at h with hsum
    push_neg at hsum
    rw [pyAbs_eq_abs] at hsum
    obtain ⟨hall, ht⟩ := validateDims_ok dims 0 t hv
    rw [ht] at hsum
    simp only [zero_add] at hsum
    exact ⟨hdims, hall, hsum⟩

/-! ## Orchestrator lemmas -/

/-- `lookup` skips an entry with a non-matching key. -/
theorem lookup_cons_ne {α β} [BEq α] {k a : α} {b : β} {es : List (α × β)}
    (h : (a == k) = false) : ((k, b) :: es).lookup a = es.lookup a := by
  simp only [List.lookup]
  rw [h]

/-- With the LLM disabled, one student's mixed evaluation result does not
depend on the threaded agent states. -/
theorem evalStudentMixed_result_disabled (ext : Externals)
    (svc : LLMService) (r : OrchRubric) (problem idealReference : String)
    (codeSubs contentSubs : List (String × String)) (student : String)
    (stC stT : AgentState) (hE : svc.enabled = false) :
    (evalStudentMixed ext svc r problem idealReference codeSubs contentSubs
      student stC stT).1 =
      mixedStudentResult ext svc r problem idealReference codeSubs
        contentSubs student := by
  have hcode : ∀ inp, (codeEvaluate ext svc stC inp).1 =
      (codeEvaluate ext svc freshAgent inp).1 :=
    fun inp => codeEvaluate_result_disabled ext svc stC freshAgent inp hE
  have hcont : ∀ inp, (contentEvaluate ext svc stT inp).1 =
      (contentEvaluate ext svc freshAgent inp).1 :=
    fun inp => contentEvaluate_result_disabled ext svc stT freshAgent inp hE
  simp only [mixedStudentResult, evalStudentMixed]
  cases hc : codeSubs.find?
      (fun p => getStudentNameFromFilename p.1 = student) <;>
    cases ht : contentSubs.find?
        (fun p => getStudentNameFromFilename p.1 = student) <;>
      simp [hc, ht, hcode, hcont]

/-- Every student present in either submission set gets a mixed result,
built from one or two analyzer outputs. -/
theorem mixedStudentResult_isSome (ext : Externals) (svc : LLMService)
    (r : OrchRubric) (problem idealReference : String)
    (codeSubs contentSubs : List (String × String)) {s : String}
    (hs : s ∈ mixedStudents codeSubs contentSubs) :
    ∃ res, mixedStudentResult ext svc r problem idealReference codeSubs
        contentSubs s = some res ∧
      (res.agentCount = 1 ∨ res.agentCount = 2) := by
  have hmem := mem_of_mem_pyDedup hs
  rw [List.mem_append] at hmem
  have hone : (codeSubs.find?
        (fun p => getStudentNameFromFilename p.1 = s)).isSome = true ∨
      (contentSubs.find?
        (fun p => getStudentNameFromFilename p.1 = s)).isSome = true := by
    rcases hmem with h | h
    · obtain ⟨f, hf, hname⟩ := List.mem_map.mp h
      exact Or.inl (find?_isSome_of_mem _ hf (by simp [hname]))
    · obtain ⟨f, hf, hname⟩ := List.mem_map.mp h
      exact Or.inr (find?_isSome_of_mem _ hf (by simp [hname]))
  simp only [mixedStudentResult, evalStudentMixed]
  cases hc : codeSubs.find? (fun p => getStudentNameFromFilename p.1 = s) with
  | none =>
    cases ht : contentSubs.find?
        (fun p => getStudentNameFromFilename p.1 = s) with
    | none => simp [hc, ht] at hone
    | some tc => simp [hc, ht]
  | some fc =>
    cases ht : contentSubs.find?
        (fun p => getStudentNameFromFilename p.1 = s) with
    | none => simp [hc, ht]
    | some tc => simp [hc, ht]

/-- With the LLM disabled, looking up any listed student in the mixed loop
output returns that student's state-independent result. -/
theorem lookup_evalMixedGo (ext : Externals) (svc : LLMService)
    (r : OrchRubric) (problem idealReference : String)
    (codeSubs contentSubs : List (String × String))
    (hE : svc.enabled = false) {s : String} {res : MixedResult}
    (hres : mixedStudentResult ext svc r problem idealReference codeSubs
      contentSubs s = some res) :
    ∀ (L : List String) (stC stT : AgentState), s ∈ L →
      (evalMixedGo ext svc r problem idealReference codeSubs contentSubs
        L stC stT).lookup s = some res := by
  intro L
  induction L with
  | nil =>
    intro stC stT h
    cases h
  | cons t rest ih =>
    intro stC stT hmem
    have hts := evalStudentMixed_result_disabled ext svc r problem
      idealReference codeSubs contentSubs t stC stT hE
    simp only [evalMixedGo]
    rcases hrun : evalStudentMixed ext svc r problem idealReference codeSubs
        contentSubs t stC stT with ⟨out, stC', stT'⟩
    rw [hrun] at hts
    by_cases heq : t = s
    · subst heq
      rw [hres] at hts
      cases out with
      | none => exact absurd hts (by simp)
      | some r' =>
        have hr : r' = res := by
          simpa using hts
        subst hr
        simp [List.lookup_cons_self]
    · have hne : (s == t) = false := by
        rw [beq_eq_false_iff_ne]
        exact fun hcontra => heq (hcontra.symm)
      cases out with
      | none =>
        exact ih stC' stT' (by
          rcases List.mem_cons.mp hmem with rfl | hm
          · exact absurd rfl heq
          · exact hm)
      | some r' =>
        rw [lookup_cons_ne hne]
        exact ih stC' stT' (by
          rcases List.mem_cons.mp hmem with rfl | hm
          · exact absurd rfl heq
          · exact hm)

/-- `scores.get` at the four literal keys of the code agent. -/
theorem codeScoreOf_approach (p : CodeParts) :
    codeScoreOf p "approach" = p.approach := rfl

theorem codeScoreOf_readability (p : CodeParts) :
    codeScoreOf p "readability" = p.readabilityScore := rfl

theorem codeScoreOf_structure (p : CodeParts) :
    codeScoreOf p "structure" = p.structureScore := rfl

theorem codeScoreOf_effort (p : CodeParts) :
    codeScoreOf p "effort" = p.effortScore := rfl

/-- The relevance multiplier coincides with the closed form
`min(approach_score, 60) / 60` used by the specification. -/
theorem relevanceMultiplier_eq_min (a : ℚ) :
    relevanceMultiplier a = min a 60 / 60 := by
  unfold relevanceMultiplier
  split_ifs with h
  · rw [min_eq_right h]
    norm_num
  · rw [min_eq_left (le_of_not_le h)]

/-- With no verdict, or an `UNCERTAIN` one, the shared keyword block scores
by the strict fallback: 75 exactly when the match ratio reaches 1/4 or at
least two keywords are covered, otherwise 0. -/
theorem approachKeywordBlock_fallback (st : AgentState)
    (code problem : String) (v : Option String) (fb : List String)
    (hv : v = none ∨ v = some "UNCERTAIN") :
    (approachKeywordBlock st code problem v fb).1 =
      if 1/4 ≤ keywordMatchRatio problem code ∨
          2 ≤ (coveredKeywords problem code).length then 75 else 0 := by
  have hne : ¬ (v = some "RELEVANT" ∨ v = some "PARTIAL") := by
    rcases hv with rfl | rfl <;> decide
  simp only [approachKeywordBlock]
  rw [if_neg hne]
  split_ifs with h
  · show min (75 : ℚ) 100 = 75
    exact min_eq_left (by norm_num)
  · rfl

/-- Once the plagiarism heuristic has fired, the content core caps the
score at 20. -/
theorem contentEvaluateCore_plag_cap (ext : Externals) (svc : LLMService)
    (st : AgentState) (inp : ContentInput) (kc : List String)
    (fb : List String) (hp : inp.problem ≠ "") (hc : 0 < inp.content.length)
    (hsim : 3/5 < ext.seqRatio inp.problem inp.content) :
    (contentEvaluateCore ext svc st inp kc fb).1.score ≤ 20 := by
  obtain ⟨add, upd, hcov⟩ := evaluateConceptCoverage_decomp svc inp.content kc
  simp only [contentEvaluateCore, hcov]
  rw [if_pos (⟨hp, hc⟩ : inp.problem ≠ "" ∧ 0 < inp.content.length)]
  rw [if_pos hsim]
  by_cases h0 : conceptCoverageScore inp.content kc = 0
  · rw [if_pos h0]
    norm_num
  · rw [if_neg h0]
    simp only [ite_true]
    exact le_trans (@pyRound2_le_int _ 20 (by push_cast; exact min_le_right _ _))
      (by norm_num)

/-! ## Claims -/

/-- C6 (counterexample): the aggregation curve is not monotonic on
`[0, 100]`: it maps 59 to 61.95 but 60 to 60. -/
theorem c6_counterexample :
    (59 : ℚ) ≤ 60 ∧ (0 : ℚ) ≤ 59 ∧ (60 : ℚ) ≤ 100 ∧
      applyLearningOrientedNormalization 60 <
        applyLearningOrientedNormalization 59 := by
  refine ⟨by norm_num, by norm_num, by norm_num, ?_⟩
  norm_num [applyLearningOrientedNormalization]

/-- C6 (amended): the aggregation curve
(`AggregatorAgent._apply_learning_oriented_normalization`) is monotonic on
`[0, 100]` except across the 60 threshold: `curve x ≤ curve y` holds for
`0 ≤ x ≤ y` whenever `y < 60`, or `60 ≤ x`, or `y ≥ 1.05·x`; it fails only
for `x` in `(400/7, 60)` against `y ∈ [60, 1.05·x)`, e.g. `curve 59 = 61.95
> 60 = curve 60`. -/
theorem c6_curve_monotone_amended (x y : ℚ) (_hx0 : 0 ≤ x) (hxy : x ≤ y)
    (hcase : y < 60 ∨ 60 ≤ x ∨ 21/20 * x ≤ y) :
    applyLearningOrientedNormalization x ≤
      applyLearningOrientedNormalization y := by
  unfold applyLearningOrientedNormalization
  split_ifs with h1 h2 h3 h4 h5 h6 h7 h8
  · -- x < 40, y < 40
    have : x * (11/10) ≤ y * (11/10) := by nlinarith
    exact le_min (le_trans (min_le_left _ _) this) (min_le_right _ _)
  · -- x < 40, 40 ≤ y < 60
    have : (40 : ℚ) ≤ y * (21/20) := by nlinarith
    exact le_trans (min_le_right _ _) this
  · -- x < 40, y ≥ 60
    have : (40 : ℚ) ≤ y := by linarith
    exact le_trans (min_le_right _ _) this
  · -- 40 ≤ x < 60, y < 40 : impossible
    linarith
  · -- 40 ≤ x < 60, 40 ≤ y < 60
    nlinarith
  · -- 40 ≤ x < 60, y ≥ 60
    rcases hcase with hc | hc | hc
    · linarith
    · linarith
    · linarith
  · -- x ≥ 60, y < 40 : impossible
    linarith
  · -- x ≥ 60, 40 ≤ y < 60 : impossible
    linarith
  · -- x ≥ 60, y ≥ 60
    exact hxy

/-- C6 witness: the amended monotonicity applied at `x = 10`, `y = 50`. -/
theorem c6_curve_monotone_amended_witness :
    applyLearningOrientedNormalization 10 ≤
      applyLearningOrientedNormalization 50 :=
  c6_curve_monotone_amended 10 50 (by norm_num) (by norm_num)
    (Or.inl (by norm_num))

/-- C7: `Rubric.validate`, run at construction time, rejects a rubric
whose dimensions miss `code` or `content`, or with any weight outside
`[0, 1]`, or any non-positive max score, or weights summing outside
`1 ± 0.01`; and every rubric that validates successfully has dimension
weights summing to `1 ± 0.01`. -/
theorem c7_rubric_validation (dims : List (String × DimCfg)) :
    (¬ ((dims.map Prod.fst).contains "code" ∧
        (dims.map Prod.fst).contains "content") →
      rubricValidate ⟨some dims⟩ ≠ .ok ()) ∧
    ((∃ p ∈ dims, ∃ w, p.2.weight = some w ∧ (w < 0 ∨ 1 < w)) →
      rubricValidate ⟨some dims⟩ ≠ .ok ()) ∧
    ((∃ p ∈ dims, ∃ m, p.2.maxScore = some m ∧ m ≤ 0) →
      rubricValidate ⟨some dims⟩ ≠ .ok ()) ∧
    (1/100 < |(dims.map (fun p => p.2.weight.getD 0)).sum - 1| →
      rubricValidate ⟨some dims⟩ ≠ .ok ()) ∧
    (rubricValidate ⟨some dims⟩ = .ok () →
      |(dims.map (fun p => p.2.weight.getD 0)).sum - 1| ≤ 1/100) := by
  refine ⟨?_, ?_, ?_, ?_, ?_⟩
  · intro hmiss hok
    exact hmiss (rubricValidate_ok dims hok).1
  · rintro ⟨p, hp, w, hw, hbad⟩ hok
    obtain ⟨w', m', hw', _, h0, h1, _⟩ := (rubricValidate_ok dims hok).2.1 p hp
    rw [hw] at hw'
    cases hw'
    rcases hbad with h | h
    · exact absurd h (not_lt.mpr h0)
    · exact absurd h (not_lt.mpr h1)
  · rintro ⟨p, hp, m, hm, hbad⟩ hok
    obtain ⟨w', m', _, hm', _, _, hmp⟩ := (rubricValidate_ok dims hok).2.1 p hp
    rw [hm] at hm'
    cases hm'
    exact absurd hmp (not_lt.mpr hbad)
  · intro hsum hok
    have := (rubricValidate_ok dims hok).2.2
    linarith [abs_nonneg ((dims.map (fun p => p.2.weight.getD 0)).sum - 1)]
  · intro hok
    exact (rubricValidate_ok dims hok).2.2

/-- C7 witness: the validation facts applied to a concrete rubric that
misses the `content` dimension, and to the default rubric's dimensions,
which validate with weight sum exactly 1. -/
theorem c7_rubric_validation_witness :
    rubricValidate ⟨some [("code", ⟨some (1/2), some 100⟩)]⟩ ≠ .ok () ∧
    abs ((([("code", (⟨some (3/5), some 100⟩ : DimCfg)),
        ("content", ⟨some (2/5), some 100⟩)].map
          (fun p => p.2.weight.getD 0)).sum) - 1) ≤ 1/100 := by
  constructor
  · exact (c7_rubric_validation [("code", ⟨some (1/2), some 100⟩)]).1
      (by decide)
  · exact (c7_rubric_validation
      [("code", ⟨some (3/5), some 100⟩), ("content", ⟨some (2/5), some 100⟩)]).2.2.2.2
      (by simp only [rubricValidate, validateDims]; norm_num [pyAbs])

/-- C1 (counterexample): a Python submission that fails to parse is not
returned with overall score 0 and a single feedback line: evaluation
continues past the approach step, and the snippet `"def f(:"` scores 2.0
(the capped readability 10 times its weight 0.2) with five feedback
lines. -/
theorem c1_counterexample :
    extNone.pyAst "def f(:" = none ∧
    (codeEvaluate extNone svcOff freshAgent
        ⟨"", none, "def f(:", "a.py"⟩).1.score = 2 ∧
    (codeEvaluate extNone svcOff freshAgent
        ⟨"", none, "def f(:", "a.py"⟩).1.feedback.length = 5 := by
  refine ⟨rfl, ?_, by decide⟩
  have hs : (codeEvaluate extNone svcOff freshAgent
      ⟨"", none, "def f(:", "a.py"⟩).1.score =
      pyRound2 (0 * (2/5) + (min (min (60 + 0) 100) 10 * (1/5) +
        (0 * (0 / 60) * (1/5) + (min (30 + 0) 100 * (0 / 60) * (1/5) + 0)))) := rfl
  rw [hs]
  have harg : (0 : ℚ) * (2/5) + (min (min (60 + 0) 100) 10 * (1/5) +
      (0 * (0 / 60) * (1/5) + (min (30 + 0) 100 * (0 / 60) * (1/5) + 0))) = 2 := by
    norm_num [min_def]
  rw [harg]
  norm_num [pyRound2, roundHalfEven]

/-- C1 (amended): with the elaboration service disabled and default
weights, a Python submission that fails to parse still runs the whole
pipeline: the syntax-error line is the first of several feedback lines,
and the overall score is the capped raw readability times its weight
0.2 — not necessarily 0. -/
theorem c1_parse_failure_amended (ext : Externals) (svc : LLMService)
    (st : AgentState) (inp : CodeInput) (hE : svc.enabled = false)
    (hlang : detectLanguage inp.code inp.filename = Lang.python)
    (hast : ext.pyAst inp.code = none) (hw : inp.rubricWeights = none) :
    (codeEvaluate ext svc st inp).1.score =
      pyRound2 (min (evaluateReadability ext inp.code [] Lang.python).1 10 *
        (1/5)) ∧
    (codeEvaluate ext svc st inp).1.feedback.head? =
      some "Code has syntax errors. Review and fix them." ∧
    2 ≤ (codeEvaluate ext svc st inp).1.feedback.length := by
  obtain ⟨rs, radd, hrd⟩ := evaluateReadability_decomp ext inp.code Lang.python
  obtain ⟨es, eadd, hef⟩ := evaluateEffort_decomp ext inp.code Lang.python
  have hstr : ∀ fb, evaluateStructure ext inp.code fb Lang.python = (0, fb) := by
    intro fb
    simp [evaluateStructure, hast]
  have hap : ∀ fb, evaluateApproach ext svc st inp.code inp.problem
      Lang.python fb =
      (0, fb ++ ["Code has syntax errors. Review and fix them."], st) := by
    intro fb
    simp [evaluateApproach, hE, evaluateApproachPython, hast]
  simp only [codeEvaluate, codeParts, hlang, hap, hrd, hstr, hef, hw,
    Option.getD_none, defaultCodeWeights, List.map_cons, List.map_nil,
    List.sum_cons, List.sum_nil, codeScoreOf_approach, codeScoreOf_readability,
    codeScoreOf_structure, codeScoreOf_effort, hE, Bool.false_eq_true,
    if_false, eq_self_iff_true, if_true, List.nil_append]
  refine ⟨?_, ?_, ?_⟩
  · simp only [gatedReadability, gatedByRelevance, relevanceMultiplier,
      eq_self_iff_true, if_true]
    rw [if_neg (by norm_num : ¬ (60 : ℚ) ≤ 0)]
    congr 1
    ring
  · simp only [List.singleton_append, List.cons_append, List.head?_cons]
  · simp only [List.singleton_append, List.cons_append, List.length_cons,
      List.length_append]
    omega

/-- C1 witness: the amended description applied to the failing snippet
`"def f(:"` with oracles that reject every parse. -/
theorem c1_parse_failure_amended_witness :
    (codeEvaluate extNone svcOff freshAgent
        ⟨"", none, "def f(:", "a.py"⟩).1.score =
      pyRound2 (min (evaluateReadability extNone "def f(:" [] Lang.python).1
        10 * (1/5)) ∧
    (codeEvaluate extNone svcOff freshAgent
        ⟨"", none, "def f(:", "a.py"⟩).1.feedback.head? =
      some "Code has syntax errors. Review and fix them." ∧
    2 ≤ (codeEvaluate extNone svcOff freshAgent
        ⟨"", none, "def f(:", "a.py"⟩).1.feedback.length :=
  c1_parse_failure_amended extNone svcOff freshAgent
    ⟨"", none, "def f(:", "a.py"⟩ rfl rfl rfl rfl

/-- C2 (counterexample): the fallback rule is not sufficient for the
approach score: the Python submission `"alpha beta ("` covers both
problem keywords (ratio 1 ≥ 0.25, 2 ≥ 2 matches) yet its approach score
is 0 because it fails to parse. -/
theorem c2_counterexample :
    1/4 ≤ keywordMatchRatio "alpha beta" "alpha beta (" ∧
    2 ≤ (coveredKeywords "alpha beta" "alpha beta (").length ∧
    (codeParts extNone svcOff freshAgent
      ⟨"alpha beta", none, "alpha beta (", "a.py"⟩).approach = 0 := by
  refine ⟨?_, by decide, rfl⟩
  have h1 : (codeProblemKeywords "alpha beta").length = 2 := by decide
  have h2 : (coveredKeywords "alpha beta" "alpha beta (").length = 2 := by
    decide
  simp only [keywordMatchRatio]
  rw [h1, h2]
  norm_num

/-- C2 (amended): with the relevance oracle disabled or answering
`UNCERTAIN`, and provided the submission is C++ or Python that parses,
the approach score is exactly 75 when the keyword match ratio reaches
0.25 or at least two keywords are covered, and exactly 0 otherwise. -/
theorem c2_fallback_amended (ext : Externals) (svc : LLMService)
    (st : AgentState) (inp : CodeInput)
    (hgate : svc.enabled = false ∨
      svc.checkRelevance inp.problem inp.code "code" = "UNCERTAIN")
    (hparse : detectLanguage inp.code inp.filename = Lang.cpp ∨
      (detectLanguage inp.code inp.filename = Lang.python ∧
        (ext.pyAst inp.code).isSome = true)) :
    (codeParts ext svc st inp).approach =
      if 1/4 ≤ keywordMatchRatio inp.problem inp.code ∨
          2 ≤ (coveredKeywords inp.problem inp.code).length then 75 else 0 := by
  have hbr : (codeParts ext svc st inp).approach =
      (evaluateApproach ext svc st inp.code inp.problem
        (detectLanguage inp.code inp.filename) []).1 := rfl
  rw [hbr]
  by_cases hE : svc.enabled = true
  · have hv : svc.checkRelevance inp.problem inp.code "code" = "UNCERTAIN" := by
      rcases hgate with h | h
      · rw [h] at hE
        exact Bool.noConfusion hE
      · exact h
    simp only [evaluateApproach, hE, eq_self_iff_true, if_true, hv]
    rw [if_neg (by decide : ¬ ("UNCERTAIN" : String) = "IRRELEVANT")]
    rw [if_neg (by decide : ¬ ("UNCERTAIN" : String) = "PARTIAL")]
    rw [if_neg (by decide : ¬ ("UNCERTAIN" : String) = "RELEVANT")]
    rcases hparse with hcpp | ⟨hpy, hsome⟩
    · rw [hcpp]
      exact approachKeywordBlock_fallback _ _ _ _ _ (Or.inr rfl)
    · rw [hpy]
      obtain ⟨pp, hpp⟩ := Option.isSome_iff_exists.mp hsome
      show (evaluateApproachPython ext _ inp.code inp.problem
        (some "UNCERTAIN") []).1 = _
      simp only [evaluateApproachPython, hpp]
      exact approachKeywordBlock_fallback _ _ _ _ _ (Or.inr rfl)
  · have hE' : svc.enabled = false := by
      cases h : svc.enabled
      · rfl
      · exact absurd h hE
    simp only [evaluateApproach, hE', Bool.false_eq_true, if_false]
    rcases hparse with hcpp | ⟨hpy, hsome⟩
    · rw [hcpp]
      exact approachKeywordBlock_fallback _ _ _ _ _ (Or.inl rfl)
    · rw [hpy]
      obtain ⟨pp, hpp⟩ := Option.isSome_iff_exists.mp hsome
      show (evaluateApproachPython ext st inp.code inp.problem none []).1 = _
      simp only [evaluateApproachPython, hpp]
      exact approachKeywordBlock_fallback _ _ _ _ _ (Or.inl rfl)

/-- C2 witness: the amended fallback applied to the parsing submission
`"alpha"` against problem statement `"alpha beta"`. -/
theorem c2_fallback_amended_witness :
    (codeParts extAlpha svcOff freshAgent
        ⟨"alpha beta", none, "alpha", "a.py"⟩).approach =
      if 1/4 ≤ keywordMatchRatio "alpha beta" "alpha" ∨
          2 ≤ (coveredKeywords "alpha beta" "alpha").length then 75 else 0 :=
  c2_fallback_amended extAlpha svcOff freshAgent
    ⟨"alpha beta", none, "alpha", "a.py"⟩ (Or.inl rfl) (Or.inr ⟨rfl, rfl⟩)

/-- C3: in every code-analyzer run, approach score 0 caps readability at
10 and zeroes structure and effort, while a positive approach score scales
all three raw scores by `min(approach_score, 60) / 60`. -/
theorem c3_relevance_gating (ext : Externals) (svc : LLMService)
    (st : AgentState) (inp : CodeInput) :
    ((codeParts ext svc st inp).approach = 0 →
      (codeParts ext svc st inp).readabilityScore =
        min (codeParts ext svc st inp).readabilityRaw 10 ∧
      (codeParts ext svc st inp).structureScore = 0 ∧
      (codeParts ext svc st inp).effortScore = 0) ∧
    (0 < (codeParts ext svc st inp).approach →
      (codeParts ext svc st inp).readabilityScore =
        (codeParts ext svc st inp).readabilityRaw *
          (min (codeParts ext svc st inp).approach 60 / 60) ∧
      (codeParts ext svc st inp).structureScore =
        (codeParts ext svc st inp).structureRaw *
          (min (codeParts ext svc st inp).approach 60 / 60) ∧
      (codeParts ext svc st inp).effortScore =
        (codeParts ext svc st inp).effortRaw *
          (min (codeParts ext svc st inp).approach 60 / 60)) := by
  have hr : (codeParts ext svc st inp).readabilityScore =
      gatedReadability (codeParts ext svc st inp).approach
        (codeParts ext svc st inp).readabilityRaw := rfl
  have hs : (codeParts ext svc st inp).structureScore =
      gatedByRelevance (codeParts ext svc st inp).approach
        (codeParts ext svc st inp).structureRaw := rfl
  have he : (codeParts ext svc st inp).effortScore =
      gatedByRelevance (codeParts ext svc st inp).approach
        (codeParts ext svc st inp).effortRaw := rfl
  constructor
  · intro h0
    rw [hr, hs, he, h0]
    refine ⟨?_, ?_, ?_⟩
    · simp [gatedReadability]
    · simp only [gatedByRelevance, relevanceMultiplier]
      rw [if_neg (by norm_num : ¬ (60 : ℚ) ≤ 0)]
      norm_num
    · simp only [gatedByRelevance, relevanceMultiplier]
      rw [if_neg (by norm_num : ¬ (60 : ℚ) ≤ 0)]
      norm_num
  · intro hpos
    rw [hr, hs, he]
    refine ⟨?_, ?_, ?_⟩
    · simp only [gatedReadability]
      rw [if_neg (LT.lt.ne' hpos), relevanceMultiplier_eq_min]
    · simp only [gatedByRelevance]
      rw [relevanceMultiplier_eq_min]
    · simp only [gatedByRelevance]
      rw [relevanceMultiplier_eq_min]

/-- C3 witness: the zero-approach branch realized on the non-parsing
snippet `"def f(:"`. -/
theorem c3_relevance_gating_witness :
    (codeParts extNone svcOff freshAgent
        ⟨"", none, "def f(:", "a.py"⟩).readabilityScore =
      min (codeParts extNone svcOff freshAgent
        ⟨"", none, "def f(:", "a.py"⟩).readabilityRaw 10 ∧
    (codeParts extNone svcOff freshAgent
        ⟨"", none, "def f(:", "a.py"⟩).structureScore = 0 ∧
    (codeParts extNone svcOff freshAgent
        ⟨"", none, "def f(:", "a.py"⟩).effortScore = 0 :=
  (c3_relevance_gating extNone svcOff freshAgent
    ⟨"", none, "def f(:", "a.py"⟩).1 rfl

/-- C4: with the elaboration service disabled, a non-empty key-concept set
with coverage score 0 makes the content analyzer return score 0 and max
score 100 immediately, its last feedback line being the gate line; with an
empty key-concept set the coverage component short-circuits to 60, so the
gate cannot fire. -/
theorem c4_coverage_gate (ext : Externals) (svc : LLMService)
    (st : AgentState) (inp : ContentInput) (hE : svc.enabled = false) :
    (extractKeyConcepts inp.rubric inp.idealReference inp.problem ≠ [] →
      conceptCoverageScore inp.content
        (extractKeyConcepts inp.rubric inp.idealReference inp.problem) = 0 →
      (contentEvaluate ext svc st inp).1.score = 0 ∧
      (contentEvaluate ext svc st inp).1.maxScore = 100 ∧
      (contentEvaluate ext svc st inp).1.feedback.getLast? =
        some "⚠️ Irrelevant submission: No key concepts from the prompt were found.") ∧
    (extractKeyConcepts inp.rubric inp.idealReference inp.problem = [] →
      conceptCoverageScore inp.content
        (extractKeyConcepts inp.rubric inp.idealReference inp.problem) = 60 ∧
      ∀ (st2 : AgentState) (fb : List String),
        (evaluateConceptCoverage svc st2 inp.content
          (extractKeyConcepts inp.rubric inp.idealReference inp.problem)
          fb).1 = 60) := by
  constructor
  · intro _ h0
    obtain ⟨add, upd, hcov⟩ := evaluateConceptCoverage_decomp svc inp.content
      (extractKeyConcepts inp.rubric inp.idealReference inp.problem)
    simp only [contentEvaluate, hE, Bool.false_eq_true, if_false,
      contentEvaluateCore, hcov]
    rw [if_pos h0]
    refine ⟨rfl, rfl, ?_⟩
    rw [List.getLast?_concat]
  · intro hkc
    constructor
    · simp [conceptCoverageScore, hkc]
    · intro st2 fb
      simp [evaluateConceptCoverage, hkc]

/-- C4 witness: the gate fires on empty content against the concepts of
problem statement `"alpha beta"`. -/
theorem c4_coverage_gate_witness :
    (contentEvaluate extNone svcOff freshAgent
        ⟨"", none, "", "alpha beta"⟩).1.score = 0 ∧
    (contentEvaluate extNone svcOff freshAgent
        ⟨"", none, "", "alpha beta"⟩).1.maxScore = 100 ∧
    (contentEvaluate extNone svcOff freshAgent
        ⟨"", none, "", "alpha beta"⟩).1.feedback.getLast? =
      some "⚠️ Irrelevant submission: No key concepts from the prompt were found." :=
  (c4_coverage_gate extNone svcOff freshAgent
    ⟨"", none, "", "alpha beta"⟩ rfl).1 (by decide)
    (by
      rw [show extractKeyConcepts (none : Option ContentRubricData) ""
          "alpha beta" = ["alpha", "beta"] from by decide]
      simp only [conceptCoverageScore]
      rw [if_neg (by decide : ¬ (["alpha", "beta"] : List String) = [])]
      rw [show (coveredConcepts "" ["alpha", "beta"]).length = 0 from by decide]
      norm_num [min_def])

/-- C5: whenever the problem statement is non-empty, the content is
non-empty, and the similarity oracle reports a ratio above 0.6, the
content analyzer's returned score is at most 20. -/
theorem c5_similarity_cap (ext : Externals) (svc : LLMService)
    (st : AgentState) (inp : ContentInput) (hp : inp.problem ≠ "")
    (hc : 0 < inp.content.length)
    (hsim : 3/5 < ext.seqRatio inp.problem inp.content) :
    (contentEvaluate ext svc st inp).1.score ≤ 20 := by
  simp only [contentEvaluate]
  by_cases hEn : svc.enabled = true
  · simp only [hEn, eq_self_iff_true, if_true]
    by_cases hv : svc.checkRelevance inp.problem inp.content "content" =
        "IRRELEVANT"
    · simp only [hv, eq_self_iff_true, if_true]
      norm_num
    · simp only [if_neg hv]
      exact contentEvaluateCore_plag_cap ext svc _ inp _ _ hp hc hsim
  · have hE' : svc.enabled = false := by
      cases h : svc.enabled
      · rfl
      · exact absurd h hEn
    simp only [hE', Bool.false_eq_true, if_false]
    exact contentEvaluateCore_plag_cap ext svc st inp _ _ hp hc hsim

/-- C5 witness: the cap applied under a similarity oracle answering
0.9. -/
theorem c5_similarity_cap_witness :
    ("alpha beta" : String) ≠ "" ∧ 0 < ("alpha" : String).length ∧
    (3 : ℚ)/5 < extSimilar.seqRatio "alpha beta" "alpha" ∧
    (contentEvaluate extSimilar svcOff freshAgent
      ⟨"alpha", none, "", "alpha beta"⟩).1.score ≤ 20 :=
  ⟨by decide, by decide, by norm_num [extSimilar, extNone],
    c5_similarity_cap extSimilar svcOff freshAgent
      ⟨"alpha", none, "", "alpha beta"⟩ (by decide) (by decide)
      (by norm_num [extSimilar, extNone])⟩

/-- C8 (counterexample): with the single non-negative rubric weight
0.00006 on readability, the snippet `"# alpha beta\nx = 1"` earns raw
readability 100, total 0.006, which the final two-decimal rounding lifts
to score 0.01 — strictly above the max score 0.006. -/
theorem c8_counterexample :
    (0 : ℚ) ≤ 3/50000 ∧
    (codeEvaluate extAssign svcOff freshAgent
        ⟨"alpha beta", some [("readability", 3/50000)],
          "# alpha beta\nx = 1", "a.py"⟩).1.maxScore <
      (codeEvaluate extAssign svcOff freshAgent
        ⟨"alpha beta", some [("readability", 3/50000)],
          "# alpha beta\nx = 1", "a.py"⟩).1.score := by
  refine ⟨by norm_num, ?_⟩
  have hbr : (codeParts extAssign svcOff freshAgent
      ⟨"alpha beta", some [("readability", 3/50000)],
        "# alpha beta\nx = 1", "a.py"⟩).approach =
      (approachKeywordBlock freshAgent "# alpha beta\nx = 1" "alpha beta"
        none []).1 := rfl
  have happ : (codeParts extAssign svcOff freshAgent
      ⟨"alpha beta", some [("readability", 3/50000)],
        "# alpha beta\nx = 1", "a.py"⟩).approach = 75 := by
    rw [hbr, approachKeywordBlock_fallback _ _ _ _ _ (Or.inl rfl)]
    rw [if_pos (Or.inr (by decide :
      2 ≤ (coveredKeywords "alpha beta" "# alpha beta\nx = 1").length))]
  have hrd : (codeParts extAssign svcOff freshAgent
      ⟨"alpha beta", some [("readability", 3/50000)],
        "# alpha beta\nx = 1", "a.py"⟩).readabilityRaw =
      min ((60 : ℚ) + 40) 100 := rfl
  have hsc : (codeEvaluate extAssign svcOff freshAgent
      ⟨"alpha beta", some [("readability", 3/50000)],
        "# alpha beta\nx = 1", "a.py"⟩).1.score =
      pyRound2 (gatedReadability
        (codeParts extAssign svcOff freshAgent
          ⟨"alpha beta", some [("readability", 3/50000)],
            "# alpha beta\nx = 1", "a.py"⟩).approach
        (codeParts extAssign svcOff freshAgent
          ⟨"alpha beta", some [("readability", 3/50000)],
            "# alpha beta\nx = 1", "a.py"⟩).readabilityRaw * (3/50000) + 0) := rfl
  have hmx : (codeEvaluate extAssign svcOff freshAgent
      ⟨"alpha beta", some [("readability", 3/50000)],
        "# alpha beta\nx = 1", "a.py"⟩).1.maxScore =
      ((3 : ℚ)/50000 + 0) * 100 := rfl
  rw [hsc, hmx, happ, hrd]
  simp only [gatedReadability]
  rw [if_neg (by norm_num : ¬ (75 : ℚ) = 0)]
  simp only [relevanceMultiplier]
  rw [if_pos (by norm_num : (60 : ℚ) ≤ 75)]
  rw [show min ((60 : ℚ) + 40) 100 = 100 from by norm_num [min_def]]
  norm_num [pyRound2, roundHalfEven]

/-- C8 (amended): under non-negative criterion weights every code-analyzer
score lies in `[0, max_score + 0.005]` — the slack being the final
two-decimal rounding — and every content-analyzer score lies in
`[0, max_score]` exactly. -/
theorem c8_bounds_amended (ext : Externals) (svc : LLMService)
    (st st2 : AgentState) (cinp : CodeInput) (tinp : ContentInput)
    (hw : ∀ kv ∈ cinp.rubricWeights.getD defaultCodeWeights, 0 ≤ kv.2) :
    (0 ≤ (codeEvaluate ext svc st cinp).1.score ∧
      (codeEvaluate ext svc st cinp).1.score ≤
        (codeEvaluate ext svc st cinp).1.maxScore + 1/200) ∧
    (0 ≤ (contentEvaluate ext svc st2 tinp).1.score ∧
      (contentEvaluate ext svc st2 tinp).1.score ≤
        (contentEvaluate ext svc st2 tinp).1.maxScore) :=
  ⟨codeEvaluate_score_bounds ext svc st cinp hw,
    contentEvaluate_score_bounds ext svc st2 tinp⟩

/-- C8 witness: the amended bounds at the default weights on empty
submissions. -/
theorem c8_bounds_amended_witness :
    (0 ≤ (codeEvaluate extNone svcOff freshAgent
        ⟨"", none, "", ""⟩).1.score ∧
      (codeEvaluate extNone svcOff freshAgent ⟨"", none, "", ""⟩).1.score ≤
        (codeEvaluate extNone svcOff freshAgent
          ⟨"", none, "", ""⟩).1.maxScore + 1/200) ∧
    (0 ≤ (contentEvaluate extNone svcOff freshAgent
        ⟨"", none, "", ""⟩).1.score ∧
      (contentEvaluate extNone svcOff freshAgent
          ⟨"", none, "", ""⟩).1.score ≤
        (contentEvaluate extNone svcOff freshAgent
          ⟨"", none, "", ""⟩).1.maxScore) :=
  c8_bounds_amended extNone svcOff freshAgent freshAgent ⟨"", none, "", ""⟩
    ⟨"", none, "", ""⟩
    (by
      intro kv hkv
      simp only [show (⟨"", none, "", ""⟩ : CodeInput).rubricWeights = none
          from rfl, Option.getD_none, defaultCodeWeights, List.mem_cons,
        List.not_mem_nil, or_false] at hkv
      rcases hkv with rfl | rfl | rfl | rfl <;> norm_num)

/-- C9 (counterexample): with the elaboration service enabled, agent
evaluation is not stateless across calls: evaluating the non-parsing
snippet `"("` right after `"alpha"` on the same instance reads the stale
missing-concept list of the earlier call and returns different feedback
than a fresh evaluation of `"("`. -/
theorem c9_counterexample :
    (codeEvaluate extAlpha svcEcho
        (codeEvaluate extAlpha svcEcho freshAgent
          ⟨"alpha beta", none, "alpha", "a.py"⟩).2
        ⟨"alpha beta", none, "(", "b.py"⟩).1.feedback ≠
      (codeEvaluate extAlpha svcEcho freshAgent
        ⟨"alpha beta", none, "(", "b.py"⟩).1.feedback := by
  have hst : (codeEvaluate extAlpha svcEcho freshAgent
      ⟨"alpha beta", none, "alpha", "a.py"⟩).2 =
      ⟨some ["beta"], some "UNCERTAIN"⟩ := by
    have hbr : (codeEvaluate extAlpha svcEcho freshAgent
        ⟨"alpha beta", none, "alpha", "a.py"⟩).2 =
        (approachKeywordBlock ⟨none, some "UNCERTAIN"⟩ "alpha" "alpha beta"
          (some "UNCERTAIN") []).2.2 := rfl
    rw [hbr]
    simp only [approachKeywordBlock]
    split_ifs <;> rfl
  rw [hst]
  have h2 : (codeEvaluate extAlpha svcEcho
      (⟨some ["beta"], some "UNCERTAIN"⟩ : AgentState)
      ⟨"alpha beta", none, "(", "b.py"⟩).1.feedback =
      ["LLM Explanation:", "beta"] := rfl
  have h3 : (codeEvaluate extAlpha svcEcho freshAgent
      ⟨"alpha beta", none, "(", "b.py"⟩).1.feedback =
      ["Code has syntax errors. Review and fix them.",
       "Line length is appropriate for readability.",
       "→ Add comments to explain your logic.",
       "→ Your solution is brief. Consider adding more logic or cases.",
       "Evaluation Note: Non-relevant submission. Effort and structure rewards are withheld."] := rfl
  rw [h2, h3]
  decide

/-- C9 (amended): with the elaboration service disabled, both analyzers
are stateless: the returned record does not depend on the instance state
left by earlier calls. -/
theorem c9_stateless_amended (ext : Externals) (svc : LLMService)
    (st st2 : AgentState) (cinp : CodeInput) (tinp : ContentInput)
    (hE : svc.enabled = false) :
    (codeEvaluate ext svc st cinp).1 = (codeEvaluate ext svc st2 cinp).1 ∧
    (contentEvaluate ext svc st tinp).1 =
      (contentEvaluate ext svc st2 tinp).1 :=
  ⟨codeEvaluate_result_disabled ext svc st st2 cinp hE,
    contentEvaluate_result_disabled ext svc st st2 tinp hE⟩

/-- C9 witness: statelessness of the disabled service on the very inputs
of the counterexample. -/
theorem c9_stateless_amended_witness :
    (codeEvaluate extAlpha svcOff
        (⟨some ["beta"], some "UNCERTAIN"⟩ : AgentState)
        ⟨"alpha beta", none, "(", "b.py"⟩).1 =
      (codeEvaluate extAlpha svcOff freshAgent
        ⟨"alpha beta", none, "(", "b.py"⟩).1 ∧
    (contentEvaluate extAlpha svcOff
        (⟨some ["beta"], some "UNCERTAIN"⟩ : AgentState)
        ⟨"alpha", none, "", "alpha beta"⟩).1 =
      (contentEvaluate extAlpha svcOff freshAgent
        ⟨"alpha", none, "", "alpha beta"⟩).1 :=
  c9_stateless_amended extAlpha svcOff ⟨some ["beta"], some "UNCERTAIN"⟩
    freshAgent ⟨"alpha beta", none, "(", "b.py"⟩
    ⟨"alpha", none, "", "alpha beta"⟩ rfl

/-- C10: in mixed-type orchestration with the elaboration service
disabled, every listed student gets exactly one result, built from one or
two analyzer outputs (the first matching file of each kind); appending a
further file of a kind the student already has does not change that
student's result. -/
theorem c10_mixed_single_per_kind (ext : Externals) (svc : LLMService)
    (r : OrchRubric) (problem idealReference : String)
    (codeSubs contentSubs : List (String × String))
    (hE : svc.enabled = false) :
    (∀ s ∈ mixedStudents codeSubs contentSubs,
      ∃ res,
        (evaluateMixedSubmissions ext svc r problem idealReference codeSubs
          contentSubs).lookup s = some res ∧
        mixedStudentResult ext svc r problem idealReference codeSubs
          contentSubs s = some res ∧
        (res.agentCount = 1 ∨ res.agentCount = 2)) ∧
    (∀ (s f c : String),
      (codeSubs.find?
        (fun p => getStudentNameFromFilename p.1 = s)).isSome = true →
      mixedStudentResult ext svc r problem idealReference
        (codeSubs ++ [(f, c)]) contentSubs s =
      mixedStudentResult ext svc r problem idealReference codeSubs
        contentSubs s) ∧
    (∀ (s f c : String),
      (contentSubs.find?
        (fun p => getStudentNameFromFilename p.1 = s)).isSome = true →
      mixedStudentResult ext svc r problem idealReference codeSubs
        (contentSubs ++ [(f, c)]) s =
      mixedStudentResult ext svc r problem idealReference codeSubs
        contentSubs s) := by
  refine ⟨?_, ?_, ?_⟩
  · intro s hs
    obtain ⟨res, hres, hcount⟩ := mixedStudentResult_isSome ext svc r problem
      idealReference codeSubs contentSubs hs
    exact ⟨res,
      lookup_evalMixedGo ext svc r problem idealReference codeSubs
        contentSubs hE hres (mixedStudents codeSubs contentSubs) freshAgent
        freshAgent hs,
      hres, hcount⟩
  · intro s f c hfind
    simp only [mixedStudentResult, evalStudentMixed,
      find?_append_of_isSome _ [(f, c)] hfind]
  · intro s f c hfind
    simp only [mixedStudentResult, evalStudentMixed,
      find?_append_of_isSome _ [(f, c)] hfind]

/-- C10 witness: the single-result property realized on one student with
one code file and one text file. -/
theorem c10_mixed_single_per_kind_witness :
    ∃ res,
      (evaluateMixedSubmissions extNone svcOff ⟨[], [], [(1 : ℚ)]⟩ "" ""
        [("s.py", "x = 1")] [("s.txt", "words")]).lookup "s_Result" =
          some res ∧
      mixedStudentResult extNone svcOff ⟨[], [], [(1 : ℚ)]⟩ "" ""
        [("s.py", "x = 1")] [("s.txt", "words")] "s_Result" = some res ∧
      (res.agentCount = 1 ∨ res.agentCount = 2) :=
  (c10_mixed_single_per_kind extNone svcOff ⟨[], [], [(1 : ℚ)]⟩ "" ""
    [("s.py", "x = 1")] [("s.txt", "words")] rfl).1 "s_Result" (by decide)
